import Mathlib

/-
Verification of the distributed KafkaChannel dispatcher
(pkg/channel/distributed/dispatcher/dispatcher/dispatcher.go).

The Go dispatcher is embedded shallowly:

* `DispatcherImpl` carries the embedded `DispatcherConfig` and the
  registry `subscribers` (the Go map from subscription UID to
  `SubscriberWrapper`), represented as a list of wrappers keyed by
  `spec.uid`.
* The Kafka consumer-group factory (`consumer.CreateConsumerGroup`) and
  the `Close()` outcome of a consumer-group handle are collaborators the
  core only calls, so they are parameters gathered in `KafkaEnv`.
  Handles are opaque `Nat` identifiers.
* Side effects that matter to the specification (factory invocation,
  starting a consumption loop, firing a StopChan, attempting a close,
  registry insertions and removals, lock acquisition) are recorded as an
  explicit trace of `DispatcherEvent`s in program order.
* `MergeSaramaSettings`, `UpdateSaramaConfig` and `ConfigEqual` live in
  common/kafka/sarama which is not part of the sources here; they are
  modelled from the specification (see their doc comments).
-/

set_option maxHeartbeats 1000000

namespace EventingKafka

/-- Knative eventingduck SubscriberSpec, restricted to the fields the
dispatcher reads: the stable UID (registry key, also the input of the
group-id derivation) and the delivery description. -/
structure SubscriberSpec where
  uid : String
  subscriberURI : String
  generation : Int
  deriving DecidableEq, Repr

/-- Modelled from the spec: the consumer-relevant part of a
`sarama.Config`. It carries the client identifier, the SASL credentials
(Net.SASL.User / Net.SASL.Password) and two opaque bundles of settings:
the consumer-relevant ones and the Producer section (whose changes never
require consumer-group recreation). -/
structure SaramaConfig where
  clientID : String
  saslUser : String
  saslPassword : String
  consumerSettings : List (String × String)
  producerSettings : List (String × String)
  deriving DecidableEq, Repr

/-- SubscriberWrapper: one registration, binding the accepted spec, the
derived group id, the consumer-group handle and the StopChan cancellation
signal (`stopChanClosed` records whether the signal has fired). -/
structure SubscriberWrapper where
  spec : SubscriberSpec
  groupId : String
  consumerGroup : Option Nat
  stopChanClosed : Bool
  deriving DecidableEq, Repr

/-- DispatcherConfig as in the Go source; `subscriberSpecs` is the
retained set of specifications of surviving registrations. -/
structure DispatcherConfig where
  clientId : String
  brokers : List String
  topic : String
  username : String
  password : String
  channelKey : String
  saramaConfig : Option SaramaConfig
  subscriberSpecs : List SubscriberSpec
  deriving DecidableEq, Repr

/-- The registry: the Go map from UID to wrapper, keyed by `spec.uid`. -/
abbrev Registry := List SubscriberWrapper

/-- DispatcherImpl: embedded config plus the subscribers registry. -/
structure DispatcherImpl where
  config : DispatcherConfig
  subscribers : Registry
  deriving DecidableEq, Repr

/-- Result of one call to the consumer-group factory. -/
inductive CreateResult where
  | ok (handle : Nat)
  | fail (e : String)
  deriving DecidableEq, Repr

/-- Modelled from the spec: the collaborators the dispatcher calls but
does not implement - the consumer-group factory
(`consumer.CreateConsumerGroup`), and the outcome of closing a given
consumer-group handle. -/
structure KafkaEnv where
  createConsumerGroup : List String → SaramaConfig → String → CreateResult
  closeOk : Nat → Bool

/-- Observable effects of the dispatcher, in program order. -/
inductive DispatcherEvent where
  | lockAcquired
  | lockReleased
  | createAttempted (groupId : String)
  | consumeStarted (groupId : String)
  | registryInserted (uid : String)
  | stopSignaled (uid : String)
  | closeAttempted (uid : String)
  | registryRemoved (uid : String)
  | subscriptionsUpdated (specs : List SubscriberSpec)
  deriving DecidableEq, Repr

/-- Registry lookup by UID (Go map access `d.subscribers[uid]`). -/
def regLookup (st : Registry) (uid : String) : Option SubscriberWrapper :=
  match st with
  | [] => none
  | w :: rest => if w.spec.uid = uid then some w else regLookup rest uid

/-- Registry removal (Go `delete(d.subscribers, uid)`). -/
def regRemove (st : Registry) (uid : String) : Registry :=
  match st with
  | [] => []
  | w :: rest =>
    if w.spec.uid = uid then regRemove rest uid else w :: regRemove rest uid

/-- Mark the StopChan of the registration with the given UID as closed
(the Go `close(subscriber.StopChan)` mutates the wrapper in place, so the
registry entry is updated). -/
def regSetStop (st : Registry) (uid : String) : Registry :=
  match st with
  | [] => []
  | w :: rest =>
    (if w.spec.uid = uid then { w with stopChanClosed := true } else w) ::
      regSetStop rest uid

/-- GroupId derivation from the subscription UID
(Go `fmt.Sprintf("kafka.%s", subscriberSpec.UID)`). -/
def groupIdOf (uid : String) : String := "kafka." ++ uid

/-- NewSubscriberWrapper: spec, derived group id, handle, open StopChan. -/
def mkWrapper (s : SubscriberSpec) (h : Nat) : SubscriberWrapper :=
  ⟨s, groupIdOf s.uid, some h, false⟩

/-- closeConsumerGroup: if the handle is non-nil, first close the
StopChan, then attempt `Close()`; on close failure the registration is
retained (not removed), on success it is deleted. A nil handle is
deleted without a close attempt. Returns the updated registry and the
trace of this teardown. -/
def closeConsumerGroup (env : KafkaEnv) (st : Registry) (w : SubscriberWrapper) :
    Registry × List DispatcherEvent :=
  match w.consumerGroup with
  | some h =>
    let st1 := regSetStop st w.spec.uid
    if env.closeOk h then
      (regRemove st1 w.spec.uid,
        [DispatcherEvent.stopSignaled w.spec.uid,
         DispatcherEvent.closeAttempted w.spec.uid,
         DispatcherEvent.registryRemoved w.spec.uid])
    else
      (st1,
        [DispatcherEvent.stopSignaled w.spec.uid,
         DispatcherEvent.closeAttempted w.spec.uid])
  | none =>
    (regRemove st w.spec.uid, [DispatcherEvent.registryRemoved w.spec.uid])

/-- Accumulator for the first loop of UpdateSubscriptions. -/
structure LoopState where
  registry : Registry
  active : List String
  failed : List (SubscriberSpec × String)
  events : List DispatcherEvent
  deriving Repr

/-- The first loop of UpdateSubscriptions: for each desired spec, if its
UID is not yet registered, derive the group id and ask the factory for a
consumer group; on failure record the spec and error and keep going, on
success start consuming and register the wrapper and mark it active;
already-registered UIDs are only marked active. -/
def processSpecs (env : KafkaEnv) (brokers : List String) (cfg : SaramaConfig) :
    List SubscriberSpec → LoopState → LoopState
  | [], acc => acc
  | s :: rest, acc =>
    match regLookup acc.registry s.uid with
    | some _ =>
      processSpecs env brokers cfg rest
        { acc with active := acc.active ++ [s.uid] }
    | none =>
      let gid := groupIdOf s.uid
      match env.createConsumerGroup brokers cfg gid with
      | CreateResult.fail e =>
        processSpecs env brokers cfg rest
          { acc with
              failed := acc.failed ++ [(s, e)],
              events := acc.events ++ [DispatcherEvent.createAttempted gid] }
      | CreateResult.ok h =>
        processSpecs env brokers cfg rest
          { acc with
              registry := acc.registry ++ [mkWrapper s h],
              active := acc.active ++ [s.uid],
              events := acc.events ++
                [DispatcherEvent.createAttempted gid,
                 DispatcherEvent.consumeStarted gid,
                 DispatcherEvent.registryInserted s.uid] }

/-- Accumulator for the removal sweep of UpdateSubscriptions. -/
structure SweepState where
  registry : Registry
  specs : List SubscriberSpec
  events : List DispatcherEvent
  deriving Repr

/-- The removal sweep of UpdateSubscriptions: iterate the registry (as it
stood after the first loop); registrations that are still active have
their spec appended to the retained SubscriberSpecs, the rest are torn
down via closeConsumerGroup. -/
def sweepSubs (env : KafkaEnv) (active : List String) :
    List SubscriberWrapper → SweepState → SweepState
  | [], acc => acc
  | w :: rest, acc =>
    if w.spec.uid ∈ active then
      sweepSubs env active rest { acc with specs := acc.specs ++ [w.spec] }
    else
      let c := closeConsumerGroup env acc.registry w
      sweepSubs env active rest
        { acc with registry := c.1, events := acc.events ++ c.2 }

/-- Result of UpdateSubscriptions: the mutated dispatcher, the returned
failure mapping (`none` is the Go nil map returned when SaramaConfig is
nil) and the trace. -/
structure UpdateResult where
  state : DispatcherImpl
  failed : Option (List (SubscriberSpec × String))
  events : List DispatcherEvent
  deriving Repr

/-- UpdateSubscriptions: with a nil SaramaConfig return nil immediately;
otherwise, under the consumerUpdateLock, run the creation loop over the
desired specs, reset the retained SubscriberSpecs, and sweep the registry
closing no-longer-active registrations, then return the failure map. -/
def UpdateSubscriptions (env : KafkaEnv) (d : DispatcherImpl)
    (specs : List SubscriberSpec) : UpdateResult :=
  match d.config.saramaConfig with
  | none => ⟨d, none, []⟩
  | some cfg =>
    let l := processSpecs env d.config.brokers cfg specs
      ⟨d.subscribers, [], [], [DispatcherEvent.lockAcquired]⟩
    let s := sweepSubs env l.active l.registry ⟨l.registry, [], l.events⟩
    ⟨⟨{ d.config with subscriberSpecs := s.specs }, s.registry⟩,
      some l.failed,
      s.events ++ [DispatcherEvent.lockReleased]⟩

/-- The loop body of Shutdown: close every registration that was in the
registry when Shutdown started, threading the evolving registry. -/
def shutdownLoop (env : KafkaEnv) :
    List SubscriberWrapper → Registry → List DispatcherEvent →
      Registry × List DispatcherEvent
  | [], st, ev => (st, ev)
  | w :: rest, st, ev =>
    let c := closeConsumerGroup env st w
    shutdownLoop env rest c.1 (ev ++ c.2)

/-- Shutdown: close the consumer groups of all subscriptions. Note that
the Go Shutdown does not acquire consumerUpdateLock, so no lock events
appear in its trace. -/
def Shutdown (env : KafkaEnv) (d : DispatcherImpl) :
    DispatcherImpl × List DispatcherEvent :=
  let r := shutdownLoop env d.subscribers d.subscribers []
  (⟨d.config, r.1⟩, r.2)

/-- NewDispatcher: fresh registry, given configuration. -/
def NewDispatcher (cfg : DispatcherConfig) : DispatcherImpl := ⟨cfg, []⟩

/-- A configuration overlay (the ConfigMap handed to ConfigChanged): the
settings it parses to, or a parse error. -/
structure ConfigMap where
  overlay : SaramaConfig
  parseError : Option String
  deriving DecidableEq, Repr

/-- Result of parsing/merging a ConfigMap. -/
inductive MergeResult where
  | ok (c : SaramaConfig)
  | fail (e : String)
  deriving DecidableEq, Repr

/-- Modelled from the spec: `kafkasarama.MergeSaramaSettings(nil, cm)` -
merge the overlay onto a blank base, failing if the ConfigMap does not
parse. The overlay never has secrets re-applied here; that is the job of
UpdateSaramaConfig. -/
def mergeSaramaSettings (cm : ConfigMap) : MergeResult :=
  match cm.parseError with
  | some e => MergeResult.fail e
  | none => MergeResult.ok cm.overlay

/-- Modelled from the spec: `kafkasarama.UpdateSaramaConfig(c, clientId,
user, password)` - overwrite the client identifier and SASL credentials
of a merged configuration with the previously held values. -/
def updateSaramaConfig (c : SaramaConfig)
    (clientID saslUser saslPassword : String) : SaramaConfig :=
  { c with clientID := clientID, saslUser := saslUser,
           saslPassword := saslPassword }

/-- Modelled from the spec: `kafkasarama.ConfigEqual(a, b, a.Producer)` -
equality of two sarama configurations ignoring the Producer section. -/
def configEqual (a b : SaramaConfig) : Bool :=
  a.clientID == b.clientID && a.saslUser == b.saslUser &&
    a.saslPassword == b.saslPassword &&
    a.consumerSettings == b.consumerSettings

/-- Result of ConfigChanged: the returned replacement dispatcher (`none`
is the Go nil return), the receiver after any mutation it performed,
whether Logger.Fatal was reached, and the trace. -/
structure ConfigChangedResult where
  replacement : Option DispatcherImpl
  self : DispatcherImpl
  fatal : Bool
  events : List DispatcherEvent
  deriving Repr

/-- Length of a Go map that may be nil (`len` of a nil map is 0). -/
def mapLen (m : Option (List (SubscriberSpec × String))) : Nat :=
  match m with
  | none => 0
  | some l => l.length

/-- The rebuild path of ConfigChanged: shut the current dispatcher down,
install the new SaramaConfig, build a new dispatcher from the (shared)
DispatcherConfig, re-register the retained SubscriberSpecs on it, and
escalate to Logger.Fatal if any re-registration failed. -/
def rebuildDispatcher (env : KafkaEnv) (d : DispatcherImpl)
    (newConfig : SaramaConfig) : ConfigChangedResult :=
  let sh := Shutdown env d
  let d2 : DispatcherImpl :=
    ⟨{ sh.1.config with saramaConfig := some newConfig }, sh.1.subscribers⟩
  let nd := NewDispatcher d2.config
  let inner := UpdateSubscriptions env nd d2.config.subscriberSpecs
  let evs := sh.2 ++
    [DispatcherEvent.subscriptionsUpdated d2.config.subscriberSpecs] ++
    inner.events
  if mapLen inner.failed > 0 then
    ⟨none, d2, true, evs⟩
  else
    ⟨some inner.state, d2, false, evs⟩

/-- ConfigChanged: merge the ConfigMap onto a blank base; on merge error
return nil with no changes. If the current SaramaConfig is non-nil,
reapply its client id and SASL credentials onto the merge result and
compare ignoring the Producer section: when equal, return nil leaving
everything untouched, otherwise (or when the current config is nil)
rebuild the dispatcher with the merged configuration. -/
def ConfigChanged (env : KafkaEnv) (d : DispatcherImpl) (cm : ConfigMap) :
    ConfigChangedResult :=
  match mergeSaramaSettings cm with
  | MergeResult.fail _ => ⟨none, d, false, []⟩
  | MergeResult.ok nc0 =>
    match d.config.saramaConfig with
    | some old =>
      let nc := updateSaramaConfig nc0 old.clientID old.saslUser old.saslPassword
      if configEqual nc old then ⟨none, d, false, []⟩
      else rebuildDispatcher env d nc
    | none => rebuildDispatcher env d nc0

/-- The SaramaConfig in effect after a ConfigChanged call: that of the
replacement dispatcher when one was returned, otherwise that of the
(possibly mutated) receiver. -/
def effectiveSarama (r : ConfigChangedResult) : Option SaramaConfig :=
  match r.replacement with
  | some nd => nd.config.saramaConfig
  | none => r.self.config.saramaConfig

/-- Event classifiers used to state trace properties. -/
def isCreateEvent : DispatcherEvent → Bool
  | DispatcherEvent.createAttempted _ => true
  | _ => false

def isStartEvent : DispatcherEvent → Bool
  | DispatcherEvent.consumeStarted _ => true
  | _ => false

def isLockEvent : DispatcherEvent → Bool
  | DispatcherEvent.lockAcquired => true
  | DispatcherEvent.lockReleased => true
  | _ => false

def isSubsUpdatedEvent : DispatcherEvent → Bool
  | DispatcherEvent.subscriptionsUpdated _ => true
  | _ => false

/-- Count the events of a trace selected by a classifier. -/
def countOf (f : DispatcherEvent → Bool) (evs : List DispatcherEvent) : Nat :=
  (evs.filter f).length

/-- Number of consumer-group factory invocations recorded in a trace. -/
def countCreates (evs : List DispatcherEvent) : Nat := countOf isCreateEvent evs

/-- Number of consumption-loop starts recorded in a trace. -/
def countStarts (evs : List DispatcherEvent) : Nat := countOf isStartEvent evs

/-- One step of the lock-discipline scan: track whether the lock is held
and whether every registry mutation so far happened while holding it. -/
def lockStep (acc : Bool × Bool) (e : DispatcherEvent) : Bool × Bool :=
  match e with
  | DispatcherEvent.lockAcquired => (true, acc.2)
  | DispatcherEvent.lockReleased => (false, acc.2)
  | DispatcherEvent.registryInserted _ => (acc.1, acc.2 && acc.1)
  | DispatcherEvent.registryRemoved _ => (acc.1, acc.2 && acc.1)
  | _ => acc

/-- Whether every registry mutation in a trace happens while the
consumerUpdateLock is held. -/
def mutationsUnderLock (evs : List DispatcherEvent) : Bool :=
  (evs.foldl lockStep (false, true)).2

/-- Characterization helpers for the first loop, relative to the registry
as it stood before the loop: the wrapper a spec inserts (if any). -/
def newEntry (env : KafkaEnv) (brokers : List String) (cfg : SaramaConfig)
    (st0 : Registry) (s : SubscriberSpec) : Option SubscriberWrapper :=
  match regLookup st0 s.uid with
  | some _ => none
  | none =>
    match env.createConsumerGroup brokers cfg (groupIdOf s.uid) with
    | CreateResult.ok h => some (mkWrapper s h)
    | CreateResult.fail _ => none

/-- The failure-map entry a spec contributes (if any). -/
def failEntry (env : KafkaEnv) (brokers : List String) (cfg : SaramaConfig)
    (st0 : Registry) (s : SubscriberSpec) : Option (SubscriberSpec × String) :=
  match regLookup st0 s.uid with
  | some _ => none
  | none =>
    match env.createConsumerGroup brokers cfg (groupIdOf s.uid) with
    | CreateResult.ok _ => none
    | CreateResult.fail e => some (s, e)

/-- The active-set entry a spec contributes (if any). -/
def activeEntry (env : KafkaEnv) (brokers : List String) (cfg : SaramaConfig)
    (st0 : Registry) (s : SubscriberSpec) : Option String :=
  match regLookup st0 s.uid with
  | some _ => some s.uid
  | none =>
    match env.createConsumerGroup brokers cfg (groupIdOf s.uid) with
    | CreateResult.ok _ => some s.uid
    | CreateResult.fail _ => none

/-- The UIDs of the registrations of a registry. -/
def regUids (st : Registry) : List String := st.map (fun w => w.spec.uid)

/-
Concrete fixtures used by the witness theorems.
-/

def wSpecA : SubscriberSpec := ⟨"ua", "http://a.example", 1⟩

def wSpecB : SubscriberSpec := ⟨"ub", "http://b.example", 2⟩

def wSpecC : SubscriberSpec := ⟨"uc", "http://c.example", 3⟩

def wCfg : SaramaConfig :=
  ⟨"client", "user", "secret", [("fetch.min", "1")], [("acks", "all")]⟩

def wEnvOk : KafkaEnv := ⟨fun _ _ _ => CreateResult.ok 7, fun _ => true⟩

def wEnvFailB : KafkaEnv :=
  ⟨fun _ _ g =>
    if g = groupIdOf wSpecB.uid then CreateResult.fail "boom"
    else CreateResult.ok 7,
   fun _ => true⟩

def wEnvCloseFail : KafkaEnv :=
  ⟨fun _ _ _ => CreateResult.ok 7, fun _ => false⟩

def wConfig : DispatcherConfig :=
  ⟨"cid", ["broker1"], "topic", "u", "p", "ck", some wCfg, []⟩

def wConfigNil : DispatcherConfig :=
  ⟨"cid", ["broker1"], "topic", "u", "p", "ck", none, []⟩

def wConfigB : DispatcherConfig :=
  ⟨"cid", ["broker1"], "topic", "u", "p", "ck", some wCfg, [wSpecB]⟩

def wDisp : DispatcherImpl := ⟨wConfig, []⟩

def wDispNil : DispatcherImpl := ⟨wConfigNil, []⟩

def wDispB : DispatcherImpl := ⟨wConfigB, []⟩

def wWrapA : SubscriberWrapper := mkWrapper wSpecA 5

def wRegA : Registry := [wWrapA]

def wDispA : DispatcherImpl := ⟨wConfig, wRegA⟩

def wOverlay : SaramaConfig :=
  ⟨"oc", "ou", "op", [("fetch.min", "2")], [("acks", "all")]⟩

def wOverlayProd : SaramaConfig :=
  ⟨"oc", "ou", "op", [("fetch.min", "1")], [("acks", "one")]⟩

def wOverlayCreds : SaramaConfig :=
  ⟨"zz", "zu", "zp", [("fetch.min", "2")], [("acks", "all")]⟩

def wCmRebuild : ConfigMap := ⟨wOverlay, none⟩

def wDisp1 : DispatcherImpl := (UpdateSubscriptions wEnvOk wDisp [wSpecA]).state

def wSurvivors : List SubscriberSpec := wDisp1.subscribers.map (fun w => w.spec)

def wMerged : SaramaConfig :=
  updateSaramaConfig wOverlay wCfg.clientID wCfg.saslUser wCfg.saslPassword

def wInner : UpdateResult :=
  UpdateSubscriptions wEnvOk
    (NewDispatcher { wDisp1.config with saramaConfig := some wMerged })
    wDisp1.config.subscriberSpecs

def wCmNoop : ConfigMap := ⟨wOverlayProd, none⟩

def wCmCreds : ConfigMap := ⟨wOverlayCreds, none⟩

/-
Lemmas: registry operations.
-/

theorem regLookup_append (st1 st2 : Registry) (u : String) :
    regLookup (st1 ++ st2) u =
      match regLookup st1 u with
      | some w => some w
      | none => regLookup st2 u := by
  induction st1 with
  | nil => simp [regLookup]
  | cons w rest ih =>
    by_cases h : w.spec.uid = u
    · simp [regLookup, h]
    · simp [regLookup, h, ih]

theorem regLookup_regRemove (st : Registry) (u v : String) :
    regLookup (regRemove st u) v =
      if v = u then none else regLookup st v := by
  induction st with
  | nil => simp [regLookup, regRemove]
  | cons w rest ih =>
    by_cases hv : v = u
    · subst hv
      by_cases hu : w.spec.uid = v
      · simp only [regRemove, if_pos hu]
        simpa using ih
      · simp only [regRemove, if_neg hu, regLookup, if_neg hu]
        simpa using ih
    · by_cases hu : w.spec.uid = u
      · have hwv : ¬ w.spec.uid = v := fun h => hv (h.symm.trans hu)
        simp only [regRemove, if_pos hu, regLookup, if_neg hwv, if_neg hv]
        simpa [hv] using ih
      · by_cases hwv : w.spec.uid = v
        · simp [regRemove, if_neg hu, regLookup, hwv, hv]
        · simp only [regRemove, if_neg hu, regLookup, if_neg hwv, if_neg hv]
          simpa [hv] using ih

theorem regLookup_regSetStop (st : Registry) (u v : String) :
    regLookup (regSetStop st u) v =
      if v = u then
        (regLookup st u).map (fun w => { w with stopChanClosed := true })
      else regLookup st v := by
  induction st with
  | nil => simp [regLookup, regSetStop]
  | cons w rest ih =>
    by_cases hv : v = u
    · subst hv
      by_cases hu : w.spec.uid = v
      · simp [regSetStop, regLookup, hu]
      · simp only [regSetStop, if_neg hu, regLookup, if_neg hu]
        simpa using ih
    · by_cases hu : w.spec.uid = u
      · have hwv : ¬ w.spec.uid = v := fun h => hv (h.symm.trans hu)
        simp only [regSetStop, if_pos hu, regLookup]
        rw [if_neg hv, if_neg hwv, if_neg hwv]
        simpa [hv] using ih
      · by_cases hwv : w.spec.uid = v
        · simp only [regSetStop, if_neg hu, regLookup]
          rw [if_neg hv, if_pos hwv, if_pos hwv]
        · simp only [regSetStop, if_neg hu, regLookup]
          rw [if_neg hv, if_neg hwv, if_neg hwv]
          simpa [hv] using ih

theorem regRemove_regSetStop (st : Registry) (u : String) :
    regRemove (regSetStop st u) u = regRemove st u := by
  induction st with
  | nil => rfl
  | cons w rest ih =>
    by_cases hu : w.spec.uid = u
    · simp [regSetStop, regRemove, hu, ih]
    · simp [regSetStop, regRemove, hu, ih]

theorem regRemove_eq_filter (st : Registry) (u : String) :
    regRemove st u = st.filter (fun w => decide (w.spec.uid ≠ u)) := by
  induction st with
  | nil => rfl
  | cons w rest ih =>
    by_cases hu : w.spec.uid = u
    · simp [regRemove, hu, ih, List.filter]
    · simp [regRemove, hu, ih, List.filter]

theorem regLookup_mem {st : Registry} {u : String} {w : SubscriberWrapper}
    (h : regLookup st u = some w) : w ∈ st ∧ w.spec.uid = u := by
  induction st with
  | nil => simp [regLookup] at h
  | cons x rest ih =>
    by_cases hx : x.spec.uid = u
    · simp [regLookup, hx] at h
      subst h
      exact ⟨List.mem_cons_self _ _, hx⟩
    · simp [regLookup, hx] at h
      obtain ⟨hm, hu⟩ := ih h
      exact ⟨List.mem_cons_of_mem _ hm, hu⟩

theorem regLookup_isSome_of_mem {st : Registry} {w : SubscriberWrapper}
    (h : w ∈ st) : (regLookup st w.spec.uid).isSome := by
  induction st with
  | nil => simp at h
  | cons x rest ih =>
    rcases List.mem_cons.mp h with rfl | hm
    · simp [regLookup]
    · by_cases hx : x.spec.uid = w.spec.uid
      · simp [regLookup, hx]
      · simp [regLookup, hx, ih hm]

/-
Lemmas: closeConsumerGroup.
-/

theorem closeConsumerGroup_lookup (env : KafkaEnv) (st : Registry)
    (w : SubscriberWrapper) (v : String) :
    regLookup (closeConsumerGroup env st w).1 v =
      if v = w.spec.uid then
        (match w.consumerGroup with
         | some h =>
           if env.closeOk h then none
           else (regLookup st v).map (fun x => { x with stopChanClosed := true })
         | none => none)
      else regLookup st v := by
  cases hcg : w.consumerGroup with
  | none =>
    simp only [closeConsumerGroup, hcg]
    rw [regLookup_regRemove]
  | some h =>
    cases hok : env.closeOk h with
    | true =>
      simp only [closeConsumerGroup, hcg, hok, if_true]
      rw [regLookup_regRemove]
      by_cases hv : v = w.spec.uid
      · simp [hv]
      · rw [if_neg hv, if_neg hv, regLookup_regSetStop, if_neg hv]
    | false =>
      simp only [closeConsumerGroup, hcg, hok, Bool.false_eq_true, if_false]
      rw [regLookup_regSetStop]
      by_cases hv : v = w.spec.uid
      · simp [hv]
      · rw [if_neg hv, if_neg hv]

theorem closeConsumerGroup_events_countOf (env : KafkaEnv) (st : Registry)
    (w : SubscriberWrapper) (f : DispatcherEvent → Bool)
    (hstop : ∀ u, f (DispatcherEvent.stopSignaled u) = false)
    (hclose : ∀ u, f (DispatcherEvent.closeAttempted u) = false)
    (hrem : ∀ u, f (DispatcherEvent.registryRemoved u) = false) :
    countOf f (closeConsumerGroup env st w).2 = 0 := by
  cases hcg : w.consumerGroup with
  | none => simp [closeConsumerGroup, hcg, countOf, List.filter, hrem]
  | some h =>
    by_cases hok : env.closeOk h
    · simp [closeConsumerGroup, hcg, hok, countOf, List.filter, hstop, hclose, hrem]
    · simp [closeConsumerGroup, hcg, hok, countOf, List.filter, hstop, hclose]

theorem closeConsumerGroup_registry_closeOk (env : KafkaEnv) (st : Registry)
    (w : SubscriberWrapper) (hclose : ∀ h, env.closeOk h = true) :
    (closeConsumerGroup env st w).1 =
      st.filter (fun x => decide (x.spec.uid ≠ w.spec.uid)) := by
  cases hcg : w.consumerGroup with
  | none => simp only [closeConsumerGroup, hcg, regRemove_eq_filter]
  | some h =>
    simp only [closeConsumerGroup, hcg, hclose h, if_true]
    rw [regRemove_regSetStop, regRemove_eq_filter]

theorem closeConsumerGroup_events_mem (env : KafkaEnv) (st : Registry)
    (w : SubscriberWrapper) (h : Nat) (hcg : w.consumerGroup = some h) :
    DispatcherEvent.stopSignaled w.spec.uid ∈ (closeConsumerGroup env st w).2 ∧
      DispatcherEvent.closeAttempted w.spec.uid ∈ (closeConsumerGroup env st w).2 := by
  cases hok : env.closeOk h with
  | true => simp [closeConsumerGroup, hcg, hok]
  | false => simp [closeConsumerGroup, hcg, hok]

/-
Lemmas: the removal sweep.
-/

theorem countOf_append (f : DispatcherEvent → Bool) (a b : List DispatcherEvent) :
    countOf f (a ++ b) = countOf f a + countOf f b := by
  simp [countOf, List.filter_append]

theorem sweepSubs_registry_active (env : KafkaEnv) (active : List String)
    (ss : List SubscriberWrapper) (acc : SweepState) (u : String)
    (hu : u ∈ active) :
    regLookup (sweepSubs env active ss acc).registry u =
      regLookup acc.registry u := by
  induction ss generalizing acc with
  | nil => rfl
  | cons w rest ih =>
    by_cases hw : w.spec.uid ∈ active
    · simp only [sweepSubs, if_pos hw]
      exact ih _
    · simp only [sweepSubs, if_neg hw]
      rw [ih _]
      simp only [closeConsumerGroup_lookup]
      have : ¬ u = w.spec.uid := fun h => hw (h ▸ hu)
      rw [if_neg this]

theorem sweepSubs_registry_inactive (env : KafkaEnv) (active : List String)
    (ss : List SubscriberWrapper) (acc : SweepState) (u : String)
    (hclose : ∀ h, env.closeOk h = true) (hu : u ∉ active) :
    regLookup (sweepSubs env active ss acc).registry u =
      if u ∈ regUids ss then none else regLookup acc.registry u := by
  induction ss generalizing acc with
  | nil => simp [sweepSubs, regUids]
  | cons w rest ih =>
    by_cases hw : w.spec.uid ∈ active
    · have huw : ¬ u = w.spec.uid := fun h => hu (h ▸ hw)
      have hmem : (u ∈ regUids (w :: rest)) ↔ (u ∈ regUids rest) := by
        simp [regUids, huw]
      simp only [sweepSubs, if_pos hw]
      rw [ih _]
      by_cases hr : u ∈ regUids rest
      · rw [if_pos hr, if_pos (hmem.mpr hr)]
      · rw [if_neg hr, if_neg (fun hc => hr (hmem.mp hc))]
    · simp only [sweepSubs, if_neg hw]
      rw [ih _]
      by_cases huw : u = w.spec.uid
      · have hcl : regLookup (closeConsumerGroup env acc.registry w).1 u = none := by
          rw [closeConsumerGroup_lookup, if_pos huw]
          cases hcg : w.consumerGroup with
          | none => rfl
          | some h => simp [hclose h]
        have hin : u ∈ regUids (w :: rest) := by
          simp [regUids, huw]
        rw [if_pos hin]
        by_cases hr : u ∈ regUids rest
        · rw [if_pos hr]
        · rw [if_neg hr]
          exact hcl
      · have hmem : (u ∈ regUids (w :: rest)) ↔ (u ∈ regUids rest) := by
          simp [regUids, huw]
        have hcl : regLookup (closeConsumerGroup env acc.registry w).1 u =
            regLookup acc.registry u := by
          rw [closeConsumerGroup_lookup, if_neg huw]
        by_cases hr : u ∈ regUids rest
        · rw [if_pos hr, if_pos (hmem.mpr hr)]
        · rw [if_neg hr, if_neg (fun hc => hr (hmem.mp hc))]
          exact hcl

theorem sweepSubs_specs (env : KafkaEnv) (active : List String)
    (ss : List SubscriberWrapper) (acc : SweepState) :
    (sweepSubs env active ss acc).specs =
      acc.specs ++
        (ss.filter (fun w => decide (w.spec.uid ∈ active))).map
          (fun w => w.spec) := by
  induction ss generalizing acc with
  | nil => simp [sweepSubs]
  | cons w rest ih =>
    by_cases hw : w.spec.uid ∈ active
    · simp only [sweepSubs, if_pos hw]
      rw [ih _]
      simp [List.filter, hw]
    · simp only [sweepSubs, if_neg hw]
      rw [ih _]
      simp [List.filter, hw]

theorem sweepSubs_registry_filter (env : KafkaEnv) (active : List String)
    (ss : List SubscriberWrapper) (acc : SweepState)
    (hclose : ∀ h, env.closeOk h = true) :
    (sweepSubs env active ss acc).registry =
      acc.registry.filter
        (fun x => decide (x.spec.uid ∈ active ∨ x.spec.uid ∉ regUids ss)) := by
  induction ss generalizing acc with
  | nil =>
    simp only [sweepSubs, regUids, List.map_nil]
    rw [List.filter_eq_self.mpr]
    intro x _
    simp
  | cons w rest ih =>
    by_cases hw : w.spec.uid ∈ active
    · simp only [sweepSubs, if_pos hw]
      rw [ih _]
      apply List.filter_congr
      intro x _
      by_cases hx : x.spec.uid ∈ active
      · simp [hx]
      · have hxw : ¬ x.spec.uid = w.spec.uid := fun h => hx (h ▸ hw)
        simp [hx, regUids, hxw]
    · simp only [sweepSubs, if_neg hw]
      rw [ih _]
      rw [closeConsumerGroup_registry_closeOk env _ _ hclose]
      rw [List.filter_filter]
      apply List.filter_congr
      intro x _
      by_cases hxw : x.spec.uid = w.spec.uid
      · have hx : x.spec.uid ∉ active := fun hc => hw (hxw ▸ hc)
        simp [hx, hxw, regUids, hw]
      · by_cases hx : x.spec.uid ∈ active
        · simp [hx, hxw]
        · simp [hx, hxw, regUids]

theorem sweepSubs_events_countOf (env : KafkaEnv) (active : List String)
    (ss : List SubscriberWrapper) (acc : SweepState)
    (f : DispatcherEvent → Bool)
    (hstop : ∀ u, f (DispatcherEvent.stopSignaled u) = false)
    (hclose : ∀ u, f (DispatcherEvent.closeAttempted u) = false)
    (hrem : ∀ u, f (DispatcherEvent.registryRemoved u) = false) :
    countOf f (sweepSubs env active ss acc).events = countOf f acc.events := by
  induction ss generalizing acc with
  | nil => rfl
  | cons w rest ih =>
    by_cases hw : w.spec.uid ∈ active
    · simp only [sweepSubs, if_pos hw]
      exact ih _
    · simp only [sweepSubs, if_neg hw]
      rw [ih _]
      show countOf f (acc.events ++ (closeConsumerGroup env acc.registry w).2) =
        countOf f acc.events
      rw [countOf_append,
        closeConsumerGroup_events_countOf env _ _ f hstop hclose hrem]
      omega

theorem sweepSubs_events_mono (env : KafkaEnv) (active : List String)
    (ss : List SubscriberWrapper) (acc : SweepState) (x : DispatcherEvent)
    (hx : x ∈ acc.events) :
    x ∈ (sweepSubs env active ss acc).events := by
  induction ss generalizing acc with
  | nil => exact hx
  | cons w rest ih =>
    by_cases hw : w.spec.uid ∈ active
    · simp only [sweepSubs, if_pos hw]
      exact ih _ hx
    · simp only [sweepSubs, if_neg hw]
      exact ih _ (List.mem_append_left _ hx)

theorem sweepSubs_close_events (env : KafkaEnv) (active : List String)
    (ss : List SubscriberWrapper) (acc : SweepState) (w : SubscriberWrapper)
    (hw : w ∈ ss) (hact : w.spec.uid ∉ active) (h : Nat)
    (hcg : w.consumerGroup = some h) :
    DispatcherEvent.stopSignaled w.spec.uid ∈
        (sweepSubs env active ss acc).events ∧
      DispatcherEvent.closeAttempted w.spec.uid ∈
        (sweepSubs env active ss acc).events := by
  induction ss generalizing acc with
  | nil => simp at hw
  | cons v rest ih =>
    rcases List.mem_cons.mp hw with rfl | hm
    · simp only [sweepSubs, if_neg hact]
      obtain ⟨h1, h2⟩ := closeConsumerGroup_events_mem env acc.registry w h hcg
      constructor
      · exact sweepSubs_events_mono env active rest _ _
          (List.mem_append_right _ h1)
      · exact sweepSubs_events_mono env active rest _ _
          (List.mem_append_right _ h2)
    · by_cases hv : v.spec.uid ∈ active
      · simp only [sweepSubs, if_pos hv]
        exact ih _ hm
      · simp only [sweepSubs, if_neg hv]
        exact ih _ hm

/-
Lemmas: Shutdown.
-/

theorem shutdownLoop_registry_closeOk (env : KafkaEnv)
    (ss : List SubscriberWrapper) (st : Registry) (ev : List DispatcherEvent)
    (hclose : ∀ h, env.closeOk h = true) :
    (shutdownLoop env ss st ev).1 =
      st.filter (fun x => decide (x.spec.uid ∉ regUids ss)) := by
  induction ss generalizing st ev with
  | nil =>
    simp only [shutdownLoop, regUids, List.map_nil]
    rw [List.filter_eq_self.mpr]
    intro x _
    simp
  | cons w rest ih =>
    simp only [shutdownLoop]
    rw [ih _ _]
    rw [closeConsumerGroup_registry_closeOk env _ _ hclose]
    rw [List.filter_filter]
    apply List.filter_congr
    intro x _
    by_cases hxw : x.spec.uid = w.spec.uid
    · simp [hxw, regUids]
    · simp [hxw, regUids]

theorem shutdownLoop_events_countOf (env : KafkaEnv)
    (ss : List SubscriberWrapper) (st : Registry) (ev : List DispatcherEvent)
    (f : DispatcherEvent → Bool)
    (hstop : ∀ u, f (DispatcherEvent.stopSignaled u) = false)
    (hclose : ∀ u, f (DispatcherEvent.closeAttempted u) = false)
    (hrem : ∀ u, f (DispatcherEvent.registryRemoved u) = false) :
    countOf f (shutdownLoop env ss st ev).2 = countOf f ev := by
  induction ss generalizing st ev with
  | nil => rfl
  | cons w rest ih =>
    simp only [shutdownLoop]
    rw [ih _ _]
    rw [countOf_append,
      closeConsumerGroup_events_countOf env _ _ f hstop hclose hrem]
    omega

theorem Shutdown_registry_closeOk (env : KafkaEnv) (d : DispatcherImpl)
    (hclose : ∀ h, env.closeOk h = true) :
    (Shutdown env d).1.subscribers = [] := by
  simp only [Shutdown]
  rw [shutdownLoop_registry_closeOk env _ _ _ hclose]
  rw [List.filter_eq_nil_iff]
  intro x hx
  simp only [regUids, List.mem_map, Bool.not_eq_false, decide_eq_true_eq]
  exact fun hc => hc ⟨x, hx, rfl⟩

theorem Shutdown_config (env : KafkaEnv) (d : DispatcherImpl) :
    (Shutdown env d).1.config = d.config := rfl

/-
Lemmas: the creation loop of UpdateSubscriptions.
-/

theorem regLookup_append_isSome (st1 st2 : Registry) (u : String) :
    (regLookup (st1 ++ st2) u).isSome =
      ((regLookup st1 u).isSome || (regLookup st2 u).isSome) := by
  rw [regLookup_append]
  cases regLookup st1 u <;> simp

theorem processSpecs_all_registered (env : KafkaEnv) (brokers : List String)
    (cfg : SaramaConfig) (specs : List SubscriberSpec) (acc : LoopState)
    (hreg : ∀ s ∈ specs, (regLookup acc.registry s.uid).isSome) :
    processSpecs env brokers cfg specs acc =
      { acc with active := acc.active ++ specs.map (fun s => s.uid) } := by
  induction specs generalizing acc with
  | nil => simp [processSpecs]
  | cons s rest ih =>
    obtain ⟨w, hw⟩ := Option.isSome_iff_exists.mp
      (hreg s (List.mem_cons_self _ _))
    simp only [processSpecs, hw]
    rw [ih { acc with active := acc.active ++ [s.uid] }
      (fun t ht => hreg t (List.mem_cons_of_mem _ ht))]
    simp

theorem processSpecs_failed_ok (env : KafkaEnv) (brokers : List String)
    (cfg : SaramaConfig) (specs : List SubscriberSpec) (acc : LoopState)
    (hok : ∀ g, ∃ h, env.createConsumerGroup brokers cfg g = CreateResult.ok h) :
    (processSpecs env brokers cfg specs acc).failed = acc.failed := by
  induction specs generalizing acc with
  | nil => rfl
  | cons s rest ih =>
    cases hl : regLookup acc.registry s.uid with
    | some w =>
      simp only [processSpecs, hl]
      exact ih { acc with active := acc.active ++ [s.uid] }
    | none =>
      obtain ⟨h, hh⟩ := hok (groupIdOf s.uid)
      simp only [processSpecs, hl, hh]
      exact ih { acc with
        registry := acc.registry ++ [mkWrapper s h],
        active := acc.active ++ [s.uid],
        events := acc.events ++
          [DispatcherEvent.createAttempted (groupIdOf s.uid),
           DispatcherEvent.consumeStarted (groupIdOf s.uid),
           DispatcherEvent.registryInserted s.uid] }

theorem processSpecs_registered_ok (env : KafkaEnv) (brokers : List String)
    (cfg : SaramaConfig) (specs : List SubscriberSpec) (acc : LoopState)
    (hok : ∀ g, ∃ h, env.createConsumerGroup brokers cfg g = CreateResult.ok h)
    (u : String)
    (hu : u ∈ specs.map (fun s => s.uid) ∨ (regLookup acc.registry u).isSome) :
    (regLookup (processSpecs env brokers cfg specs acc).registry u).isSome := by
  induction specs generalizing acc with
  | nil =>
    rcases hu with hm | hs
    · simp at hm
    · exact hs
  | cons s rest ih =>
    cases hl : regLookup acc.registry s.uid with
    | some w =>
      simp only [processSpecs, hl]
      apply ih { acc with active := acc.active ++ [s.uid] }
      rcases hu with hm | hs
      · rw [List.map_cons] at hm
        rcases List.mem_cons.mp hm with heq | hm2
        · right
          subst heq
          simp [hl]
        · left
          exact hm2
      · right
        exact hs
    | none =>
      obtain ⟨h, hh⟩ := hok (groupIdOf s.uid)
      simp only [processSpecs, hl, hh]
      apply ih { acc with
        registry := acc.registry ++ [mkWrapper s h],
        active := acc.active ++ [s.uid],
        events := acc.events ++
          [DispatcherEvent.createAttempted (groupIdOf s.uid),
           DispatcherEvent.consumeStarted (groupIdOf s.uid),
           DispatcherEvent.registryInserted s.uid] }
      rcases hu with hm | hs
      · rw [List.map_cons] at hm
        rcases List.mem_cons.mp hm with heq | hm2
        · right
          subst heq
          show (regLookup (acc.registry ++ [mkWrapper s h]) s.uid).isSome = true
          rw [regLookup_append_isSome]
          simp [regLookup, mkWrapper]
        · left
          exact hm2
      · right
        show (regLookup (acc.registry ++ [mkWrapper s h]) u).isSome = true
        rw [regLookup_append_isSome, hs]
        simp

theorem processSpecs_active_ok (env : KafkaEnv) (brokers : List String)
    (cfg : SaramaConfig) (specs : List SubscriberSpec) (acc : LoopState)
    (hok : ∀ g, ∃ h, env.createConsumerGroup brokers cfg g = CreateResult.ok h)
    (u : String) :
    u ∈ (processSpecs env brokers cfg specs acc).active ↔
      u ∈ acc.active ∨ u ∈ specs.map (fun s => s.uid) := by
  induction specs generalizing acc with
  | nil => simp [processSpecs]
  | cons s rest ih =>
    cases hl : regLookup acc.registry s.uid with
    | some w =>
      simp only [processSpecs, hl]
      rw [ih { acc with active := acc.active ++ [s.uid] }]
      simp only [List.mem_append, List.mem_singleton, List.map_cons,
        List.mem_cons]
      tauto
    | none =>
      obtain ⟨h, hh⟩ := hok (groupIdOf s.uid)
      simp only [processSpecs, hl, hh]
      rw [ih { acc with
        registry := acc.registry ++ [mkWrapper s h],
        active := acc.active ++ [s.uid],
        events := acc.events ++
          [DispatcherEvent.createAttempted (groupIdOf s.uid),
           DispatcherEvent.consumeStarted (groupIdOf s.uid),
           DispatcherEvent.registryInserted s.uid] }]
      simp only [List.mem_append, List.mem_singleton, List.map_cons,
        List.mem_cons]
      tauto

theorem processSpecs_events_countOf (env : KafkaEnv) (brokers : List String)
    (cfg : SaramaConfig) (specs : List SubscriberSpec) (acc : LoopState)
    (f : DispatcherEvent → Bool)
    (hcr : ∀ g, f (DispatcherEvent.createAttempted g) = false)
    (hcs : ∀ g, f (DispatcherEvent.consumeStarted g) = false)
    (hri : ∀ u, f (DispatcherEvent.registryInserted u) = false) :
    countOf f (processSpecs env brokers cfg specs acc).events =
      countOf f acc.events := by
  induction specs generalizing acc with
  | nil => rfl
  | cons s rest ih =>
    cases hl : regLookup acc.registry s.uid with
    | some w =>
      simp only [processSpecs, hl]
      exact ih { acc with active := acc.active ++ [s.uid] }
    | none =>
      cases hc : env.createConsumerGroup brokers cfg (groupIdOf s.uid) with
      | fail e =>
        simp only [processSpecs, hl, hc]
        rw [ih { acc with
          failed := acc.failed ++ [(s, e)],
          events := acc.events ++
            [DispatcherEvent.createAttempted (groupIdOf s.uid)] }]
        show countOf f (acc.events ++
          [DispatcherEvent.createAttempted (groupIdOf s.uid)]) = _
        rw [countOf_append]
        simp [countOf, List.filter, hcr]
      | ok h =>
        simp only [processSpecs, hl, hc]
        rw [ih { acc with
          registry := acc.registry ++ [mkWrapper s h],
          active := acc.active ++ [s.uid],
          events := acc.events ++
            [DispatcherEvent.createAttempted (groupIdOf s.uid),
             DispatcherEvent.consumeStarted (groupIdOf s.uid),
             DispatcherEvent.registryInserted s.uid] }]
        show countOf f (acc.events ++
          [DispatcherEvent.createAttempted (groupIdOf s.uid),
           DispatcherEvent.consumeStarted (groupIdOf s.uid),
           DispatcherEvent.registryInserted s.uid]) = _
        rw [countOf_append]
        simp [countOf, List.filter, hcr, hcs, hri]

theorem regLookup_append_new (reg st0 : Registry) (s : SubscriberSpec)
    (h : Nat) (rest : List SubscriberSpec)
    (hag : ∀ t ∈ s :: rest, regLookup reg t.uid = regLookup st0 t.uid)
    (hsu : s.uid ∉ rest.map (fun t => t.uid)) :
    ∀ t ∈ rest,
      regLookup (reg ++ [mkWrapper s h]) t.uid = regLookup st0 t.uid := by
  intro t ht
  rw [regLookup_append, hag t (List.mem_cons_of_mem _ ht)]
  have htu : ¬ (mkWrapper s h).spec.uid = t.uid := by
    simp only [mkWrapper]
    intro hc
    exact hsu (hc ▸ List.mem_map_of_mem _ ht)
  cases regLookup st0 t.uid with
  | some w => rfl
  | none => simp [regLookup, htu]

theorem processSpecs_failed_eq (env : KafkaEnv) (brokers : List String)
    (cfg : SaramaConfig) (st0 : Registry) (specs : List SubscriberSpec)
    (acc : LoopState)
    (hag : ∀ s ∈ specs, regLookup acc.registry s.uid = regLookup st0 s.uid)
    (hnd : (specs.map (fun s => s.uid)).Nodup) :
    (processSpecs env brokers cfg specs acc).failed =
      acc.failed ++ specs.filterMap (failEntry env brokers cfg st0) := by
  induction specs generalizing acc with
  | nil => simp [processSpecs]
  | cons s rest ih =>
    have hs := hag s (List.mem_cons_self _ _)
    rw [List.map_cons, List.nodup_cons] at hnd
    have hag0 : ∀ t ∈ rest, regLookup acc.registry t.uid = regLookup st0 t.uid :=
      fun t ht => hag t (List.mem_cons_of_mem _ ht)
    cases hl : regLookup st0 s.uid with
    | some w =>
      rw [hl] at hs
      simp only [processSpecs, hs]
      rw [ih { acc with active := acc.active ++ [s.uid] } hag0 hnd.2]
      simp [failEntry, hl]
    | none =>
      rw [hl] at hs
      cases hc : env.createConsumerGroup brokers cfg (groupIdOf s.uid) with
      | fail e =>
        simp only [processSpecs, hs, hc]
        rw [ih { acc with
          failed := acc.failed ++ [(s, e)],
          events := acc.events ++
            [DispatcherEvent.createAttempted (groupIdOf s.uid)] } hag0 hnd.2]
        simp [failEntry, hl, hc]
      | ok h =>
        simp only [processSpecs, hs, hc]
        rw [ih { acc with
          registry := acc.registry ++ [mkWrapper s h],
          active := acc.active ++ [s.uid],
          events := acc.events ++
            [DispatcherEvent.createAttempted (groupIdOf s.uid),
             DispatcherEvent.consumeStarted (groupIdOf s.uid),
             DispatcherEvent.registryInserted s.uid] }
          (regLookup_append_new acc.registry st0 s h rest hag hnd.1) hnd.2]
        simp [failEntry, hl, hc]

theorem processSpecs_registry_eq (env : KafkaEnv) (brokers : List String)
    (cfg : SaramaConfig) (st0 : Registry) (specs : List SubscriberSpec)
    (acc : LoopState)
    (hag : ∀ s ∈ specs, regLookup acc.registry s.uid = regLookup st0 s.uid)
    (hnd : (specs.map (fun s => s.uid)).Nodup) :
    (processSpecs env brokers cfg specs acc).registry =
      acc.registry ++ specs.filterMap (newEntry env brokers cfg st0) := by
  induction specs generalizing acc with
  | nil => simp [processSpecs]
  | cons s rest ih =>
    have hs := hag s (List.mem_cons_self _ _)
    rw [List.map_cons, List.nodup_cons] at hnd
    have hag0 : ∀ t ∈ rest, regLookup acc.registry t.uid = regLookup st0 t.uid :=
      fun t ht => hag t (List.mem_cons_of_mem _ ht)
    cases hl : regLookup st0 s.uid with
    | some w =>
      rw [hl] at hs
      simp only [processSpecs, hs]
      rw [ih { acc with active := acc.active ++ [s.uid] } hag0 hnd.2]
      simp [newEntry, hl]
    | none =>
      rw [hl] at hs
      cases hc : env.createConsumerGroup brokers cfg (groupIdOf s.uid) with
      | fail e =>
        simp only [processSpecs, hs, hc]
        rw [ih { acc with
          failed := acc.failed ++ [(s, e)],
          events := acc.events ++
            [DispatcherEvent.createAttempted (groupIdOf s.uid)] } hag0 hnd.2]
        simp [newEntry, hl, hc]
      | ok h =>
        simp only [processSpecs, hs, hc]
        rw [ih { acc with
          registry := acc.registry ++ [mkWrapper s h],
          active := acc.active ++ [s.uid],
          events := acc.events ++
            [DispatcherEvent.createAttempted (groupIdOf s.uid),
             DispatcherEvent.consumeStarted (groupIdOf s.uid),
             DispatcherEvent.registryInserted s.uid] }
          (regLookup_append_new acc.registry st0 s h rest hag hnd.1) hnd.2]
        simp [newEntry, hl, hc]

theorem processSpecs_active_eq (env : KafkaEnv) (brokers : List String)
    (cfg : SaramaConfig) (st0 : Registry) (specs : List SubscriberSpec)
    (acc : LoopState)
    (hag : ∀ s ∈ specs, regLookup acc.registry s.uid = regLookup st0 s.uid)
    (hnd : (specs.map (fun s => s.uid)).Nodup) :
    (processSpecs env brokers cfg specs acc).active =
      acc.active ++ specs.filterMap (activeEntry env brokers cfg st0) := by
  induction specs generalizing acc with
  | nil => simp [processSpecs]
  | cons s rest ih =>
    have hs := hag s (List.mem_cons_self _ _)
    rw [List.map_cons, List.nodup_cons] at hnd
    have hag0 : ∀ t ∈ rest, regLookup acc.registry t.uid = regLookup st0 t.uid :=
      fun t ht => hag t (List.mem_cons_of_mem _ ht)
    cases hl : regLookup st0 s.uid with
    | some w =>
      rw [hl] at hs
      simp only [processSpecs, hs]
      rw [ih { acc with active := acc.active ++ [s.uid] } hag0 hnd.2]
      simp [activeEntry, hl]
    | none =>
      rw [hl] at hs
      cases hc : env.createConsumerGroup brokers cfg (groupIdOf s.uid) with
      | fail e =>
        simp only [processSpecs, hs, hc]
        rw [ih { acc with
          failed := acc.failed ++ [(s, e)],
          events := acc.events ++
            [DispatcherEvent.createAttempted (groupIdOf s.uid)] } hag0 hnd.2]
        simp [activeEntry, hl, hc]
      | ok h =>
        simp only [processSpecs, hs, hc]
        rw [ih { acc with
          registry := acc.registry ++ [mkWrapper s h],
          active := acc.active ++ [s.uid],
          events := acc.events ++
            [DispatcherEvent.createAttempted (groupIdOf s.uid),
             DispatcherEvent.consumeStarted (groupIdOf s.uid),
             DispatcherEvent.registryInserted s.uid] }
          (regLookup_append_new acc.registry st0 s h rest hag hnd.1) hnd.2]
        simp [activeEntry, hl, hc]

theorem newEntry_uid {env : KafkaEnv} {brokers : List String}
    {cfg : SaramaConfig} {st0 : Registry} {s : SubscriberSpec}
    {w : SubscriberWrapper}
    (h : newEntry env brokers cfg st0 s = some w) : w.spec.uid = s.uid := by
  unfold newEntry at h
  cases hl : regLookup st0 s.uid with
  | some x => rw [hl] at h; exact absurd h (by simp)
  | none =>
    rw [hl] at h
    cases hc : env.createConsumerGroup brokers cfg (groupIdOf s.uid) with
    | ok hh =>
      rw [hc] at h
      simp only [Option.some.injEq] at h
      rw [← h]
      rfl
    | fail e => rw [hc] at h; exact absurd h (by simp)

theorem activeEntry_uid {env : KafkaEnv} {brokers : List String}
    {cfg : SaramaConfig} {st0 : Registry} {s : SubscriberSpec} {v : String}
    (h : activeEntry env brokers cfg st0 s = some v) : v = s.uid := by
  unfold activeEntry at h
  cases hl : regLookup st0 s.uid with
  | some x =>
    rw [hl] at h
    simpa using h.symm
  | none =>
    rw [hl] at h
    cases hc : env.createConsumerGroup brokers cfg (groupIdOf s.uid) with
    | ok hh =>
      rw [hc] at h
      simpa using h.symm
    | fail e => rw [hc] at h; exact absurd h (by simp)

theorem regLookup_filterMap_not_mem (env : KafkaEnv) (brokers : List String)
    (cfg : SaramaConfig) (st0 : Registry) (specs : List SubscriberSpec)
    (u : String) (hu : u ∉ specs.map (fun s => s.uid)) :
    regLookup (specs.filterMap (newEntry env brokers cfg st0)) u = none := by
  induction specs with
  | nil => rfl
  | cons s rest ih =>
    rw [List.map_cons] at hu
    have hsu : ¬ s.uid = u := fun h => hu (h ▸ List.mem_cons_self _ _)
    have hru : u ∉ rest.map (fun s => s.uid) :=
      fun h => hu (List.mem_cons_of_mem _ h)
    cases hne : newEntry env brokers cfg st0 s with
    | some w =>
      rw [List.filterMap_cons_some hne]
      have : ¬ w.spec.uid = u := by rw [newEntry_uid hne]; exact hsu
      simp only [regLookup, this, if_false]
      exact ih hru
    | none =>
      rw [List.filterMap_cons_none hne]
      exact ih hru

theorem regLookup_filterMap_newEntry (env : KafkaEnv) (brokers : List String)
    (cfg : SaramaConfig) (st0 : Registry) (specs : List SubscriberSpec)
    (s : SubscriberSpec) (hnd : (specs.map (fun t => t.uid)).Nodup)
    (hs : s ∈ specs) :
    regLookup (specs.filterMap (newEntry env brokers cfg st0)) s.uid =
      newEntry env brokers cfg st0 s := by
  induction specs with
  | nil => simp at hs
  | cons t rest ih =>
    rw [List.map_cons, List.nodup_cons] at hnd
    rcases List.mem_cons.mp hs with rfl | hm
    · cases hne : newEntry env brokers cfg st0 s with
      | some w =>
        rw [List.filterMap_cons_some hne]
        simp [regLookup, newEntry_uid hne]
      | none =>
        rw [List.filterMap_cons_none hne]
        exact regLookup_filterMap_not_mem env brokers cfg st0 rest s.uid hnd.1
    · have htu : ¬ t.uid = s.uid :=
        fun h => hnd.1 (h ▸ List.mem_map_of_mem _ hm)
      cases hne : newEntry env brokers cfg st0 t with
      | some w =>
        rw [List.filterMap_cons_some hne]
        have : ¬ w.spec.uid = s.uid := by rw [newEntry_uid hne]; exact htu
        simp only [regLookup, this, if_false]
        exact ih hnd.2 hm
      | none =>
        rw [List.filterMap_cons_none hne]
        exact ih hnd.2 hm

theorem countOf_eq_zero {f : DispatcherEvent → Bool} {evs : List DispatcherEvent}
    (h : countOf f evs = 0) : ∀ e ∈ evs, f e = false := by
  have hnil : evs.filter f = [] := List.length_eq_zero.mp h
  intro e he
  cases hf : f e with
  | false => rfl
  | true =>
    exfalso
    have : e ∈ evs.filter f := List.mem_filter.mpr ⟨he, hf⟩
    rw [hnil] at this
    simp at this

theorem not_mem_of_countOf_zero {f : DispatcherEvent → Bool}
    {evs : List DispatcherEvent} (h : countOf f evs = 0)
    {e : DispatcherEvent} (hf : f e = true) : e ∉ evs := by
  intro he
  rw [countOf_eq_zero h e he] at hf
  exact absurd hf (by simp)

/-
Lemmas: UpdateSubscriptions.
-/

theorem UpdateSubscriptions_saramaConfig (env : KafkaEnv) (d : DispatcherImpl)
    (specs : List SubscriberSpec) :
    (UpdateSubscriptions env d specs).state.config.saramaConfig =
      d.config.saramaConfig := by
  cases hcfg : d.config.saramaConfig with
  | none => simp [UpdateSubscriptions, hcfg]
  | some cfg => simp [UpdateSubscriptions, hcfg]

theorem UpdateSubscriptions_brokers (env : KafkaEnv) (d : DispatcherImpl)
    (specs : List SubscriberSpec) :
    (UpdateSubscriptions env d specs).state.config.brokers =
      d.config.brokers := by
  cases hcfg : d.config.saramaConfig with
  | none => simp [UpdateSubscriptions, hcfg]
  | some cfg => simp [UpdateSubscriptions, hcfg]

theorem UpdateSubscriptions_specs_eq_registry (env : KafkaEnv)
    (d : DispatcherImpl) (specs : List SubscriberSpec) (cfg : SaramaConfig)
    (hcfg : d.config.saramaConfig = some cfg)
    (hclose : ∀ h, env.closeOk h = true) :
    (UpdateSubscriptions env d specs).state.config.subscriberSpecs =
      (UpdateSubscriptions env d specs).state.subscribers.map
        (fun w => w.spec) := by
  simp only [UpdateSubscriptions, hcfg]
  rw [sweepSubs_specs, sweepSubs_registry_filter env _ _ _ hclose]
  rw [List.nil_append]
  congr 1
  apply List.filter_congr
  intro x hx
  have hm : x.spec.uid ∈
      regUids (processSpecs env d.config.brokers cfg specs
        ⟨d.subscribers, [], [], [DispatcherEvent.lockAcquired]⟩).registry :=
    List.mem_map_of_mem _ hx
  simp [hm]

theorem UpdateSubscriptions_countOf (env : KafkaEnv) (d : DispatcherImpl)
    (specs : List SubscriberSpec) (f : DispatcherEvent → Bool)
    (hcr : ∀ g, f (DispatcherEvent.createAttempted g) = false)
    (hcs : ∀ g, f (DispatcherEvent.consumeStarted g) = false)
    (hri : ∀ u, f (DispatcherEvent.registryInserted u) = false)
    (hstop : ∀ u, f (DispatcherEvent.stopSignaled u) = false)
    (hclose : ∀ u, f (DispatcherEvent.closeAttempted u) = false)
    (hrem : ∀ u, f (DispatcherEvent.registryRemoved u) = false)
    (hla : f DispatcherEvent.lockAcquired = false)
    (hlr : f DispatcherEvent.lockReleased = false) :
    countOf f (UpdateSubscriptions env d specs).events = 0 := by
  cases hcfg : d.config.saramaConfig with
  | none => simp [UpdateSubscriptions, hcfg, countOf]
  | some cfg =>
    simp only [UpdateSubscriptions, hcfg]
    rw [countOf_append]
    rw [sweepSubs_events_countOf env _ _ _ f hstop hclose hrem]
    rw [processSpecs_events_countOf env _ _ _ _ f hcr hcs hri]
    simp [countOf, List.filter, hla, hlr]

/-
Lemmas: the lock discipline.
-/

theorem lockStep_foldl_no_lock (evs : List DispatcherEvent) (b : Bool)
    (h : ∀ e ∈ evs, isLockEvent e = false) :
    evs.foldl lockStep (true, b) = (true, b) := by
  induction evs with
  | nil => rfl
  | cons e rest ih =>
    have hrest : ∀ x ∈ rest, isLockEvent x = false :=
      fun x hx => h x (List.mem_cons_of_mem _ hx)
    have he : isLockEvent e = false := h e (List.mem_cons_self _ _)
    cases e with
    | lockAcquired => simp [isLockEvent] at he
    | lockReleased => simp [isLockEvent] at he
    | registryInserted u =>
      simp only [List.foldl_cons, lockStep, Bool.and_true]
      exact ih hrest
    | registryRemoved u =>
      simp only [List.foldl_cons, lockStep, Bool.and_true]
      exact ih hrest
    | createAttempted g =>
      simp only [List.foldl_cons, lockStep]
      exact ih hrest
    | consumeStarted g =>
      simp only [List.foldl_cons, lockStep]
      exact ih hrest
    | stopSignaled u =>
      simp only [List.foldl_cons, lockStep]
      exact ih hrest
    | closeAttempted u =>
      simp only [List.foldl_cons, lockStep]
      exact ih hrest
    | subscriptionsUpdated l =>
      simp only [List.foldl_cons, lockStep]
      exact ih hrest

theorem processSpecs_events_shape (env : KafkaEnv) (brokers : List String)
    (cfg : SaramaConfig) (specs : List SubscriberSpec) (acc : LoopState) :
    ∃ extra, (processSpecs env brokers cfg specs acc).events =
        acc.events ++ extra ∧ ∀ e ∈ extra, isLockEvent e = false := by
  induction specs generalizing acc with
  | nil => exact ⟨[], by simp [processSpecs], by simp⟩
  | cons s rest ih =>
    cases hl : regLookup acc.registry s.uid with
    | some w =>
      simp only [processSpecs, hl]
      exact ih { acc with active := acc.active ++ [s.uid] }
    | none =>
      cases hc : env.createConsumerGroup brokers cfg (groupIdOf s.uid) with
      | fail e =>
        simp only [processSpecs, hl, hc]
        obtain ⟨extra, hev, hf⟩ := ih { acc with
          failed := acc.failed ++ [(s, e)],
          events := acc.events ++
            [DispatcherEvent.createAttempted (groupIdOf s.uid)] }
        refine ⟨DispatcherEvent.createAttempted (groupIdOf s.uid) :: extra,
          ?_, ?_⟩
        · rw [hev]
          simp
        · intro x hx
          rcases List.mem_cons.mp hx with rfl | hm
          · rfl
          · exact hf x hm
      | ok h =>
        simp only [processSpecs, hl, hc]
        obtain ⟨extra, hev, hf⟩ := ih { acc with
          registry := acc.registry ++ [mkWrapper s h],
          active := acc.active ++ [s.uid],
          events := acc.events ++
            [DispatcherEvent.createAttempted (groupIdOf s.uid),
             DispatcherEvent.consumeStarted (groupIdOf s.uid),
             DispatcherEvent.registryInserted s.uid] }
        refine ⟨DispatcherEvent.createAttempted (groupIdOf s.uid) ::
          DispatcherEvent.consumeStarted (groupIdOf s.uid) ::
          DispatcherEvent.registryInserted s.uid :: extra, ?_, ?_⟩
        · rw [hev]
          simp
        · intro x hx
          rcases List.mem_cons.mp hx with rfl | hx2
          · rfl
          · rcases List.mem_cons.mp hx2 with rfl | hx3
            · rfl
            · rcases List.mem_cons.mp hx3 with rfl | hm
              · rfl
              · exact hf x hm

theorem closeConsumerGroup_events_no_lock (env : KafkaEnv) (st : Registry)
    (w : SubscriberWrapper) :
    ∀ e ∈ (closeConsumerGroup env st w).2, isLockEvent e = false := by
  intro e he
  cases hcg : w.consumerGroup with
  | none =>
    simp only [closeConsumerGroup, hcg, List.mem_singleton] at he
    subst he
    rfl
  | some h =>
    cases hok : env.closeOk h with
    | true =>
      simp only [closeConsumerGroup, hcg, hok, if_true, List.mem_cons,
        List.not_mem_nil, or_false] at he
      rcases he with rfl | rfl | rfl <;> rfl
    | false =>
      simp only [closeConsumerGroup, hcg, hok, Bool.false_eq_true, if_false,
        List.mem_cons, List.not_mem_nil, or_false] at he
      rcases he with rfl | rfl <;> rfl

theorem sweepSubs_events_shape (env : KafkaEnv) (active : List String)
    (ss : List SubscriberWrapper) (acc : SweepState) :
    ∃ extra, (sweepSubs env active ss acc).events = acc.events ++ extra ∧
      ∀ e ∈ extra, isLockEvent e = false := by
  induction ss generalizing acc with
  | nil => exact ⟨[], by simp [sweepSubs], by simp⟩
  | cons w rest ih =>
    by_cases hw : w.spec.uid ∈ active
    · simp only [sweepSubs, if_pos hw]
      exact ih { acc with specs := acc.specs ++ [w.spec] }
    · simp only [sweepSubs, if_neg hw]
      obtain ⟨extra, hev, hf⟩ := ih { acc with
        registry := (closeConsumerGroup env acc.registry w).1,
        events := acc.events ++ (closeConsumerGroup env acc.registry w).2 }
      refine ⟨(closeConsumerGroup env acc.registry w).2 ++ extra, ?_, ?_⟩
      · rw [hev]
        simp
      · intro x hx
        rcases List.mem_append.mp hx with hm | hm
        · exact closeConsumerGroup_events_no_lock env acc.registry w x hm
        · exact hf x hm

theorem mutationsUnderLock_bracket (mid : List DispatcherEvent)
    (h : ∀ e ∈ mid, isLockEvent e = false) :
    mutationsUnderLock (DispatcherEvent.lockAcquired ::
      (mid ++ [DispatcherEvent.lockReleased])) = true := by
  unfold mutationsUnderLock
  rw [List.foldl_cons]
  show (List.foldl lockStep (true, true) (mid ++ [DispatcherEvent.lockReleased])).2 = true
  rw [List.foldl_append, lockStep_foldl_no_lock mid true h]
  rfl

theorem rebuildDispatcher_effective (env : KafkaEnv) (d : DispatcherImpl)
    (nc : SaramaConfig) :
    effectiveSarama (rebuildDispatcher env d nc) = some nc := by
  simp only [rebuildDispatcher]
  split
  · rfl
  · simp only [effectiveSarama]
    rw [UpdateSubscriptions_saramaConfig]
    rfl

/-
Claim theorems.
-/

/-- Claim C10: if the current Sarama configuration is nil,
UpdateSubscriptions returns the nil failure mapping - of length 0, so by
`len` a caller cannot tell it from the empty full-success mapping - without
creating any consumer group, without closing or removing any registration,
and without updating the retained specification set (the whole dispatcher
state is untouched and the trace is empty). -/
theorem updateSubscriptions_nil_config (env : KafkaEnv) (d : DispatcherImpl)
    (specs : List SubscriberSpec) (hnil : d.config.saramaConfig = none) :
    (UpdateSubscriptions env d specs).failed = none ∧
      (UpdateSubscriptions env d specs).state = d ∧
      (UpdateSubscriptions env d specs).events = [] ∧
      mapLen (UpdateSubscriptions env d specs).failed =
        mapLen (some ([] : List (SubscriberSpec × String))) := by
  simp [UpdateSubscriptions, hnil, mapLen]

theorem updateSubscriptions_nil_config_witness :
    (UpdateSubscriptions wEnvOk wDispNil [wSpecA]).failed = none ∧
      (UpdateSubscriptions wEnvOk wDispNil [wSpecA]).state = wDispNil ∧
      (UpdateSubscriptions wEnvOk wDispNil [wSpecA]).events = [] ∧
      mapLen (UpdateSubscriptions wEnvOk wDispNil [wSpecA]).failed =
        mapLen (some ([] : List (SubscriberSpec × String))) :=
  updateSubscriptions_nil_config wEnvOk wDispNil [wSpecA] rfl

/-- Claim C8: during teardown of a registration holding a live handle, the
cancellation signal (StopChan) fires before the handle close is attempted -
the trace is exactly stop-then-close; if the close fails the registration is
retained in the registry with its cancellation signal already fired, and if
the close succeeds the registration is removed from the registry. -/
theorem closeConsumerGroup_protocol (env : KafkaEnv) (st : Registry)
    (w : SubscriberWrapper) (h : Nat) (hcg : w.consumerGroup = some h)
    (hw : regLookup st w.spec.uid = some w) :
    (closeConsumerGroup env st w).2 =
      (if env.closeOk h then
        [DispatcherEvent.stopSignaled w.spec.uid,
         DispatcherEvent.closeAttempted w.spec.uid,
         DispatcherEvent.registryRemoved w.spec.uid]
       else
        [DispatcherEvent.stopSignaled w.spec.uid,
         DispatcherEvent.closeAttempted w.spec.uid]) ∧
      (env.closeOk h = false →
        regLookup (closeConsumerGroup env st w).1 w.spec.uid =
          some { w with stopChanClosed := true }) ∧
      (env.closeOk h = true →
        regLookup (closeConsumerGroup env st w).1 w.spec.uid = none) := by
  refine ⟨?_, ?_, ?_⟩
  · cases hok : env.closeOk h <;> simp [closeConsumerGroup, hcg, hok]
  · intro hok
    rw [closeConsumerGroup_lookup]
    simp [hcg, hok, hw]
  · intro hok
    rw [closeConsumerGroup_lookup]
    simp [hcg, hok]

theorem closeConsumerGroup_protocol_witness :
    (closeConsumerGroup wEnvCloseFail wRegA wWrapA).2 =
      (if wEnvCloseFail.closeOk 5 then
        [DispatcherEvent.stopSignaled wWrapA.spec.uid,
         DispatcherEvent.closeAttempted wWrapA.spec.uid,
         DispatcherEvent.registryRemoved wWrapA.spec.uid]
       else
        [DispatcherEvent.stopSignaled wWrapA.spec.uid,
         DispatcherEvent.closeAttempted wWrapA.spec.uid]) ∧
      (wEnvCloseFail.closeOk 5 = false →
        regLookup (closeConsumerGroup wEnvCloseFail wRegA wWrapA).1
            wWrapA.spec.uid =
          some { wWrapA with stopChanClosed := true }) ∧
      (wEnvCloseFail.closeOk 5 = true →
        regLookup (closeConsumerGroup wEnvCloseFail wRegA wWrapA).1
            wWrapA.spec.uid = none) :=
  closeConsumerGroup_protocol wEnvCloseFail wRegA wWrapA 5 (by decide)
    (by decide)

/-- Claim C9 is amended: only UpdateSubscriptions acquires the
consumerUpdateLock, and every registry mutation in its trace happens while
that lock is held; Shutdown (and hence the teardown phase of a config-driven
rebuild, which calls it) closes and removes registrations without acquiring
the lock at all. -/
theorem lock_discipline (env : KafkaEnv) (d : DispatcherImpl)
    (specs : List SubscriberSpec) :
    mutationsUnderLock (UpdateSubscriptions env d specs).events = true ∧
      countOf isLockEvent (Shutdown env d).2 = 0 := by
  constructor
  · cases hcfg : d.config.saramaConfig with
    | none => simp [UpdateSubscriptions, hcfg, mutationsUnderLock]
    | some cfg =>
      simp only [UpdateSubscriptions, hcfg]
      obtain ⟨e1, he1, hf1⟩ := processSpecs_events_shape env d.config.brokers
        cfg specs ⟨d.subscribers, [], [], [DispatcherEvent.lockAcquired]⟩
      obtain ⟨e2, he2, hf2⟩ := sweepSubs_events_shape env
        (processSpecs env d.config.brokers cfg specs
          ⟨d.subscribers, [], [], [DispatcherEvent.lockAcquired]⟩).active
        (processSpecs env d.config.brokers cfg specs
          ⟨d.subscribers, [], [], [DispatcherEvent.lockAcquired]⟩).registry
        ⟨(processSpecs env d.config.brokers cfg specs
            ⟨d.subscribers, [], [], [DispatcherEvent.lockAcquired]⟩).registry,
          [],
          (processSpecs env d.config.brokers cfg specs
            ⟨d.subscribers, [], [], [DispatcherEvent.lockAcquired]⟩).events⟩
      have hev : (sweepSubs env
          (processSpecs env d.config.brokers cfg specs
            ⟨d.subscribers, [], [], [DispatcherEvent.lockAcquired]⟩).active
          (processSpecs env d.config.brokers cfg specs
            ⟨d.subscribers, [], [], [DispatcherEvent.lockAcquired]⟩).registry
          ⟨(processSpecs env d.config.brokers cfg specs
              ⟨d.subscribers, [], [], [DispatcherEvent.lockAcquired]⟩).registry,
            [],
            (processSpecs env d.config.brokers cfg specs
              ⟨d.subscribers, [], [], [DispatcherEvent.lockAcquired]⟩).events⟩).events
            ++ [DispatcherEvent.lockReleased] =
          DispatcherEvent.lockAcquired ::
            ((e1 ++ e2) ++ [DispatcherEvent.lockReleased]) := by
        rw [he2, he1]
        simp
      rw [hev]
      apply mutationsUnderLock_bracket
      intro e he
      rcases List.mem_append.mp he with hm | hm
      · exact hf1 e hm
      · exact hf2 e hm
  · show countOf isLockEvent
        (shutdownLoop env d.subscribers d.subscribers []).2 = 0
    rw [shutdownLoop_events_countOf env _ _ _ isLockEvent (fun _ => rfl)
      (fun _ => rfl) (fun _ => rfl)]
    rfl

/-- Claim C9 is refuted as stated: Shutdown on a dispatcher with one live
registration removes it from the registry with no lock acquisition in its
trace, so not every registry mutation happens while the Orchestrator lock is
held. -/
theorem shutdown_mutates_without_lock :
    mutationsUnderLock (Shutdown wEnvOk wDispA).2 = false ∧
      DispatcherEvent.registryRemoved wSpecA.uid ∈ (Shutdown wEnvOk wDispA).2 := by
  decide

/-- Claim C4: when the merged overlay (with the client id and credentials
reapplied from the current snapshot) agrees with the current snapshot on the
consumer-relevant settings - differing at most in the Producer section -
ConfigChanged returns no replacement dispatcher and leaves the existing
dispatcher, its registry and every registration entirely unchanged, with no
teardown events. -/
theorem configChanged_producer_only_noop (env : KafkaEnv) (d : DispatcherImpl)
    (cm : ConfigMap) (old nc0 : SaramaConfig)
    (hold : d.config.saramaConfig = some old)
    (hmerge : mergeSaramaSettings cm = MergeResult.ok nc0)
    (hcons : nc0.consumerSettings = old.consumerSettings) :
    (ConfigChanged env d cm).replacement = none ∧
      (ConfigChanged env d cm).self = d ∧
      (ConfigChanged env d cm).fatal = false ∧
      (ConfigChanged env d cm).events = [] := by
  have heq : configEqual (updateSaramaConfig nc0 old.clientID old.saslUser
      old.saslPassword) old = true := by
    simp [configEqual, updateSaramaConfig, hcons]
  simp [ConfigChanged, hmerge, hold, heq]

theorem configChanged_producer_only_noop_witness :
    (ConfigChanged wEnvOk wDispA wCmNoop).replacement = none ∧
      (ConfigChanged wEnvOk wDispA wCmNoop).self = wDispA ∧
      (ConfigChanged wEnvOk wDispA wCmNoop).fatal = false ∧
      (ConfigChanged wEnvOk wDispA wCmNoop).events = [] :=
  configChanged_producer_only_noop wEnvOk wDispA wCmNoop wCfg wOverlayProd
    rfl (by decide) (by decide)

/-- Claim C5: the configuration in effect after ConfigChanged always carries
the client identifier, SASL username and SASL password of the prior snapshot,
never values from the overlay: two ConfigChanged runs whose overlays differ
only in those credential fields produce identical results, and whatever
configuration is in effect afterwards holds exactly the prior credentials and
client identifier. -/
theorem configChanged_credentials (env : KafkaEnv) (d : DispatcherImpl)
    (cm1 cm2 : ConfigMap) (old : SaramaConfig)
    (hold : d.config.saramaConfig = some old)
    (hpe : cm1.parseError = cm2.parseError)
    (hcons : cm1.overlay.consumerSettings = cm2.overlay.consumerSettings)
    (hprod : cm1.overlay.producerSettings = cm2.overlay.producerSettings) :
    ConfigChanged env d cm1 = ConfigChanged env d cm2 ∧
      ∀ c, effectiveSarama (ConfigChanged env d cm1) = some c →
        c.clientID = old.clientID ∧ c.saslUser = old.saslUser ∧
          c.saslPassword = old.saslPassword := by
  constructor
  · unfold ConfigChanged mergeSaramaSettings
    rw [hpe]
    cases hpe2 : cm2.parseError with
    | some e => rfl
    | none =>
      rw [hold]
      have hupd : updateSaramaConfig cm1.overlay old.clientID old.saslUser
          old.saslPassword = updateSaramaConfig cm2.overlay old.clientID
          old.saslUser old.saslPassword := by
        simp [updateSaramaConfig, hcons, hprod]
      simp only [hupd]
  · intro c hc
    cases hm1 : mergeSaramaSettings cm1 with
    | fail e =>
      simp only [ConfigChanged, hm1] at hc
      simp only [effectiveSarama, hold] at hc
      obtain rfl := Option.some.inj hc
      exact ⟨rfl, rfl, rfl⟩
    | ok nc0 =>
      simp only [ConfigChanged, hm1, hold] at hc
      cases hb : configEqual (updateSaramaConfig nc0 old.clientID old.saslUser
          old.saslPassword) old with
      | true =>
        simp only [hb, if_true] at hc
        simp only [effectiveSarama, hold] at hc
        obtain rfl := Option.some.inj hc
        exact ⟨rfl, rfl, rfl⟩
      | false =>
        simp only [hb, Bool.false_eq_true, if_false] at hc
        rw [rebuildDispatcher_effective] at hc
        obtain rfl := Option.some.inj hc
        exact ⟨rfl, rfl, rfl⟩

theorem configChanged_credentials_witness :
    ConfigChanged wEnvOk wDispA wCmRebuild = ConfigChanged wEnvOk wDispA wCmCreds ∧
      ∀ c, effectiveSarama (ConfigChanged wEnvOk wDispA wCmRebuild) = some c →
        c.clientID = wCfg.clientID ∧ c.saslUser = wCfg.saslUser ∧
          c.saslPassword = wCfg.saslPassword :=
  configChanged_credentials wEnvOk wDispA wCmRebuild wCmCreds wCfg rfl
    (by decide) (by decide) (by decide)

/-- Claim C3: in a config-driven rebuild (non-nil current snapshot, a
consumer-relevant difference in the merged configuration), if re-registering
the retained specification set on the new dispatcher yields a nonempty
failure mapping - even a single failed subscription - ConfigChanged escalates
to Logger.Fatal and returns no dispatcher rather than surfacing the failures
as data; with an empty failure mapping there is no fatal escalation and the
new dispatcher is returned. -/
theorem configChanged_rebuild_fatal (env : KafkaEnv) (d : DispatcherImpl)
    (cm : ConfigMap) (old nc0 : SaramaConfig)
    (l : List (SubscriberSpec × String))
    (hold : d.config.saramaConfig = some old)
    (hmerge : mergeSaramaSettings cm = MergeResult.ok nc0)
    (hneq : configEqual (updateSaramaConfig nc0 old.clientID old.saslUser
        old.saslPassword) old = false)
    (hl : (UpdateSubscriptions env
        (NewDispatcher
          { d.config with
            saramaConfig := some (updateSaramaConfig nc0 old.clientID
              old.saslUser old.saslPassword) })
        d.config.subscriberSpecs).failed = some l) :
    (l ≠ [] → (ConfigChanged env d cm).fatal = true ∧
        (ConfigChanged env d cm).replacement = none) ∧
      (l = [] → (ConfigChanged env d cm).fatal = false ∧
        (ConfigChanged env d cm).replacement ≠ none) := by
  have hred : ConfigChanged env d cm =
      rebuildDispatcher env d (updateSaramaConfig nc0 old.clientID
        old.saslUser old.saslPassword) := by
    simp [ConfigChanged, hmerge, hold, hneq]
  rw [hred]
  simp only [rebuildDispatcher, Shutdown, hl, mapLen]
  constructor
  · intro hne
    have hpos : 0 < l.length := List.length_pos.mpr hne
    rw [if_pos hpos]
    exact ⟨rfl, rfl⟩
  · intro hnil
    subst hnil
    simp

theorem configChanged_rebuild_fatal_witness :
    ([(wSpecB, "boom")] ≠ ([] : List (SubscriberSpec × String)) →
        (ConfigChanged wEnvFailB wDispB wCmRebuild).fatal = true ∧
          (ConfigChanged wEnvFailB wDispB wCmRebuild).replacement = none) ∧
      ([(wSpecB, "boom")] = ([] : List (SubscriberSpec × String)) →
        (ConfigChanged wEnvFailB wDispB wCmRebuild).fatal = false ∧
          (ConfigChanged wEnvFailB wDispB wCmRebuild).replacement ≠ none) :=
  configChanged_rebuild_fatal wEnvFailB wDispB wCmRebuild wCfg wOverlay
    [(wSpecB, "boom")] rfl (by decide) (by decide) (by decide)

/-- Claim C6: with a factory that always succeeds, UpdateSubscriptions is
idempotent: a first call with any spec sequence S returns the empty failure
mapping, and an immediately repeated call with the identical S invokes the
consumer-group factory zero times (no creation event appears in its trace)
and also returns the empty failure mapping. -/
theorem updateSubscriptions_idempotent (env : KafkaEnv) (d : DispatcherImpl)
    (cfg : SaramaConfig) (S : List SubscriberSpec)
    (hcfg : d.config.saramaConfig = some cfg)
    (hok : ∀ b c g, ∃ h, env.createConsumerGroup b c g = CreateResult.ok h) :
    (UpdateSubscriptions env d S).failed = some [] ∧
      (UpdateSubscriptions env (UpdateSubscriptions env d S).state S).failed =
        some [] ∧
      countCreates
          (UpdateSubscriptions env (UpdateSubscriptions env d S).state S).events
        = 0 := by
  have hok1 : ∀ g, ∃ h, env.createConsumerGroup d.config.brokers cfg g =
      CreateResult.ok h := fun g => hok _ _ g
  have h1 : (UpdateSubscriptions env d S).failed = some [] := by
    simp only [UpdateSubscriptions, hcfg]
    rw [processSpecs_failed_ok env d.config.brokers cfg S
      ⟨d.subscribers, [], [], [DispatcherEvent.lockAcquired]⟩ hok1]
  have hreg1 : ∀ s ∈ S,
      (regLookup (UpdateSubscriptions env d S).state.subscribers
        s.uid).isSome := by
    intro s hs
    simp only [UpdateSubscriptions, hcfg]
    have hact : s.uid ∈ (processSpecs env d.config.brokers cfg S
        ⟨d.subscribers, [], [], [DispatcherEvent.lockAcquired]⟩).active := by
      rw [processSpecs_active_ok env d.config.brokers cfg S
        ⟨d.subscribers, [], [], [DispatcherEvent.lockAcquired]⟩ hok1]
      right
      exact List.mem_map_of_mem _ hs
    rw [sweepSubs_registry_active env _ _ _ _ hact]
    exact processSpecs_registered_ok env d.config.brokers cfg S
      ⟨d.subscribers, [], [], [DispatcherEvent.lockAcquired]⟩ hok1 s.uid
      (Or.inl (List.mem_map_of_mem _ hs))
  set d1 := (UpdateSubscriptions env d S).state with hd1
  have hcfg2 : d1.config.saramaConfig = some cfg := by
    rw [hd1, UpdateSubscriptions_saramaConfig, hcfg]
  refine ⟨h1, ?_, ?_⟩
  · simp only [UpdateSubscriptions, hcfg2]
    rw [processSpecs_all_registered env d1.config.brokers cfg S
      ⟨d1.subscribers, [], [], [DispatcherEvent.lockAcquired]⟩ hreg1]
  · simp only [UpdateSubscriptions, hcfg2, countCreates]
    rw [countOf_append]
    rw [sweepSubs_events_countOf env _ _ _ isCreateEvent (fun _ => rfl)
      (fun _ => rfl) (fun _ => rfl)]
    rw [processSpecs_all_registered env d1.config.brokers cfg S
      ⟨d1.subscribers, [], [], [DispatcherEvent.lockAcquired]⟩ hreg1]
    rfl

theorem updateSubscriptions_idempotent_witness :
    (UpdateSubscriptions wEnvOk wDisp [wSpecA, wSpecB]).failed = some [] ∧
      (UpdateSubscriptions wEnvOk
          (UpdateSubscriptions wEnvOk wDisp [wSpecA, wSpecB]).state
          [wSpecA, wSpecB]).failed = some [] ∧
      countCreates
          (UpdateSubscriptions wEnvOk
            (UpdateSubscriptions wEnvOk wDisp [wSpecA, wSpecB]).state
            [wSpecA, wSpecB]).events = 0 :=
  updateSubscriptions_idempotent wEnvOk wDisp wCfg [wSpecA, wSpecB] rfl
    (fun _ _ _ => ⟨7, rfl⟩)

/-- Claim C1: when the consumer-group factory fails for exactly one desired
entry (a fresh one, with error E) and succeeds for every other fresh entry,
and handle closes succeed, UpdateSubscriptions returns a failure mapping
containing exactly the one failed spec mapped to E, and leaves the registry
containing exactly the previously registered entries that remain desired
(unchanged) plus the successfully created new entries - the failed entry is
not registered, entries no longer desired are gone, and the one failure does
not prevent processing of the remaining entries. -/
theorem updateSubscriptions_containment (env : KafkaEnv) (d : DispatcherImpl)
    (cfg : SaramaConfig) (specs : List SubscriberSpec) (sf : SubscriberSpec)
    (E : String)
    (hcfg : d.config.saramaConfig = some cfg)
    (hnd : (specs.map (fun s => s.uid)).Nodup)
    (hclose : ∀ h, env.closeOk h = true)
    (hmem : sf ∈ specs)
    (hfresh : regLookup d.subscribers sf.uid = none)
    (hfail : env.createConsumerGroup d.config.brokers cfg (groupIdOf sf.uid) =
      CreateResult.fail E)
    (hrest : ∀ s ∈ specs, s.uid ≠ sf.uid →
      regLookup d.subscribers s.uid = none →
      ∃ h, env.createConsumerGroup d.config.brokers cfg (groupIdOf s.uid) =
        CreateResult.ok h) :
    (UpdateSubscriptions env d specs).failed = some [(sf, E)] ∧
      (∀ u w, regLookup d.subscribers u = some w →
        u ∈ specs.map (fun s => s.uid) →
        regLookup (UpdateSubscriptions env d specs).state.subscribers u =
          some w) ∧
      (∀ s ∈ specs, s.uid ≠ sf.uid → regLookup d.subscribers s.uid = none →
        ∃ h, env.createConsumerGroup d.config.brokers cfg (groupIdOf s.uid) =
            CreateResult.ok h ∧
          regLookup (UpdateSubscriptions env d specs).state.subscribers s.uid
            = some (mkWrapper s h)) ∧
      regLookup (UpdateSubscriptions env d specs).state.subscribers sf.uid =
        none ∧
      (∀ u, u ∉ specs.map (fun s => s.uid) →
        regLookup (UpdateSubscriptions env d specs).state.subscribers u =
          none) := by
  obtain ⟨l1, l2, hsplit⟩ := List.append_of_mem hmem
  have hnd2 := hnd
  rw [hsplit, List.map_append, List.map_cons, List.nodup_append] at hnd2
  obtain ⟨hndA, hndB, hdisj⟩ := hnd2
  have huid1 : ∀ s ∈ l1, s.uid ≠ sf.uid := by
    intro s hs heq
    exact (hdisj (List.mem_map_of_mem _ hs)) (heq ▸ List.mem_cons_self _ _)
  have huid2 : ∀ s ∈ l2, s.uid ≠ sf.uid := by
    intro s hs heq
    exact (List.nodup_cons.mp hndB).1 (heq ▸ List.mem_map_of_mem _ hs)
  have hag0 : ∀ s ∈ specs,
      regLookup (d.subscribers : Registry) s.uid =
        regLookup d.subscribers s.uid := fun _ _ => rfl
  have hfailedEq := processSpecs_failed_eq env d.config.brokers cfg
    d.subscribers specs ⟨d.subscribers, [], [], [DispatcherEvent.lockAcquired]⟩
    hag0 hnd
  have hregEq := processSpecs_registry_eq env d.config.brokers cfg
    d.subscribers specs ⟨d.subscribers, [], [], [DispatcherEvent.lockAcquired]⟩
    hag0 hnd
  have hactEq := processSpecs_active_eq env d.config.brokers cfg
    d.subscribers specs ⟨d.subscribers, [], [], [DispatcherEvent.lockAcquired]⟩
    hag0 hnd
  have hfENone : ∀ s ∈ specs, s.uid ≠ sf.uid →
      failEntry env d.config.brokers cfg d.subscribers s = none := by
    intro s hs hne
    cases hl : regLookup d.subscribers s.uid with
    | some w => simp [failEntry, hl]
    | none =>
      obtain ⟨h, hch⟩ := hrest s hs hne hl
      simp [failEntry, hl, hch]
  have hfmFail : specs.filterMap (failEntry env d.config.brokers cfg
      d.subscribers) = [(sf, E)] := by
    rw [hsplit, List.filterMap_append]
    have h1 : l1.filterMap (failEntry env d.config.brokers cfg d.subscribers)
        = [] := by
      rw [List.filterMap_eq_nil_iff]
      intro s hs
      exact hfENone s (hsplit ▸ List.mem_append_left _ hs) (huid1 s hs)
    have h2 : l2.filterMap (failEntry env d.config.brokers cfg d.subscribers)
        = [] := by
      rw [List.filterMap_eq_nil_iff]
      intro s hs
      exact hfENone s
        (hsplit ▸ List.mem_append_right _ (List.mem_cons_of_mem _ hs))
        (huid2 s hs)
    have hsf : failEntry env d.config.brokers cfg d.subscribers sf =
        some (sf, E) := by
      simp [failEntry, hfresh, hfail]
    rw [h1, List.filterMap_cons_some hsf, h2]
    rfl
  have hactMem : ∀ u, u ∈ (processSpecs env d.config.brokers cfg specs
      ⟨d.subscribers, [], [], [DispatcherEvent.lockAcquired]⟩).active ↔
      ∃ s ∈ specs,
        activeEntry env d.config.brokers cfg d.subscribers s = some u := by
    intro u
    rw [hactEq]
    simp [List.mem_filterMap]
  have hactPrior : ∀ u, (regLookup d.subscribers u).isSome →
      u ∈ specs.map (fun s => s.uid) →
      u ∈ (processSpecs env d.config.brokers cfg specs
        ⟨d.subscribers, [], [], [DispatcherEvent.lockAcquired]⟩).active := by
    intro u hsome hu
    rw [hactMem]
    obtain ⟨s, hsS, hsu⟩ := List.mem_map.mp hu
    subst hsu
    obtain ⟨w, hw⟩ := Option.isSome_iff_exists.mp hsome
    exact ⟨s, hsS, by simp [activeEntry, hw]⟩
  have hactNew : ∀ s ∈ specs, regLookup d.subscribers s.uid = none →
      ∀ h, env.createConsumerGroup d.config.brokers cfg (groupIdOf s.uid) =
        CreateResult.ok h →
      s.uid ∈ (processSpecs env d.config.brokers cfg specs
        ⟨d.subscribers, [], [], [DispatcherEvent.lockAcquired]⟩).active := by
    intro s hsS hl h hch
    rw [hactMem]
    exact ⟨s, hsS, by simp [activeEntry, hl, hch]⟩
  have hactSf : sf.uid ∉ (processSpecs env d.config.brokers cfg specs
      ⟨d.subscribers, [], [], [DispatcherEvent.lockAcquired]⟩).active := by
    rw [hactMem]
    rintro ⟨s, hsS, ha⟩
    have hsu : s.uid = sf.uid := (activeEntry_uid ha).symm
    have hsplit2 := hsplit ▸ hsS
    rcases List.mem_append.mp hsplit2 with hs1 | hs2
    · exact huid1 s hs1 hsu
    · rcases List.mem_cons.mp hs2 with rfl | hs3
      · rw [activeEntry, hfresh, hfail] at ha
        exact absurd ha (by simp)
      · exact huid2 s hs3 hsu
  have hactOut : ∀ u, u ∉ specs.map (fun s => s.uid) →
      u ∉ (processSpecs env d.config.brokers cfg specs
        ⟨d.subscribers, [], [], [DispatcherEvent.lockAcquired]⟩).active := by
    intro u hu
    rw [hactMem]
    rintro ⟨s, hsS, ha⟩
    apply hu
    rw [activeEntry_uid ha]
    exact List.mem_map_of_mem _ hsS
  refine ⟨?_, ?_, ?_, ?_, ?_⟩
  · simp only [UpdateSubscriptions, hcfg]
    rw [hfailedEq, hfmFail]
    rfl
  · intro u w hw hu
    simp only [UpdateSubscriptions, hcfg]
    rw [sweepSubs_registry_active env _ _ _ _
      (hactPrior u (by simp [hw]) hu)]
    show regLookup (processSpecs env d.config.brokers cfg specs
      ⟨d.subscribers, [], [], [DispatcherEvent.lockAcquired]⟩).registry u =
      some w
    rw [hregEq, regLookup_append, hw]
  · intro s hsS hne hl
    obtain ⟨h, hch⟩ := hrest s hsS hne hl
    refine ⟨h, hch, ?_⟩
    simp only [UpdateSubscriptions, hcfg]
    rw [sweepSubs_registry_active env _ _ _ _ (hactNew s hsS hl h hch)]
    show regLookup (processSpecs env d.config.brokers cfg specs
      ⟨d.subscribers, [], [], [DispatcherEvent.lockAcquired]⟩).registry s.uid =
      some (mkWrapper s h)
    rw [hregEq, regLookup_append, hl]
    rw [regLookup_filterMap_newEntry env d.config.brokers cfg d.subscribers
      specs s hnd hsS]
    simp [newEntry, hl, hch]
  · simp only [UpdateSubscriptions, hcfg]
    rw [sweepSubs_registry_inactive env _ _ _ _ hclose hactSf]
    have hlook : regLookup (processSpecs env d.config.brokers cfg specs
        ⟨d.subscribers, [], [], [DispatcherEvent.lockAcquired]⟩).registry
        sf.uid = none := by
      rw [hregEq, regLookup_append, hfresh]
      rw [regLookup_filterMap_newEntry env d.config.brokers cfg d.subscribers
        specs sf hnd hmem]
      simp [newEntry, hfresh, hfail]
    by_cases hin : sf.uid ∈ regUids (processSpecs env d.config.brokers cfg
        specs ⟨d.subscribers, [], [], [DispatcherEvent.lockAcquired]⟩).registry
    · rw [if_pos hin]
    · rw [if_neg hin]
      exact hlook
  · intro u hu
    simp only [UpdateSubscriptions, hcfg]
    rw [sweepSubs_registry_inactive env _ _ _ _ hclose (hactOut u hu)]
    cases hprior : regLookup d.subscribers u with
    | some w =>
      have hin : u ∈ regUids (processSpecs env d.config.brokers cfg specs
          ⟨d.subscribers, [], [], [DispatcherEvent.lockAcquired]⟩).registry := by
        have hl2 : regLookup (processSpecs env d.config.brokers cfg specs
            ⟨d.subscribers, [], [], [DispatcherEvent.lockAcquired]⟩).registry u
            = some w := by
          rw [hregEq, regLookup_append, hprior]
        obtain ⟨hm, huid⟩ := regLookup_mem hl2
        exact huid ▸ List.mem_map_of_mem _ hm
      rw [if_pos hin]
    | none =>
      have hl2 : regLookup (processSpecs env d.config.brokers cfg specs
          ⟨d.subscribers, [], [], [DispatcherEvent.lockAcquired]⟩).registry u
          = none := by
        rw [hregEq, regLookup_append, hprior]
        exact regLookup_filterMap_not_mem env d.config.brokers cfg
          d.subscribers specs u hu
      by_cases hin : u ∈ regUids (processSpecs env d.config.brokers cfg specs
          ⟨d.subscribers, [], [], [DispatcherEvent.lockAcquired]⟩).registry
      · rw [if_pos hin]
      · rw [if_neg hin]
        exact hl2

theorem updateSubscriptions_containment_witness :
    (UpdateSubscriptions wEnvFailB wDisp [wSpecA, wSpecB, wSpecC]).failed =
        some [(wSpecB, "boom")] ∧
      (∀ u w, regLookup wDisp.subscribers u = some w →
        u ∈ [wSpecA, wSpecB, wSpecC].map (fun s => s.uid) →
        regLookup (UpdateSubscriptions wEnvFailB wDisp
            [wSpecA, wSpecB, wSpecC]).state.subscribers u = some w) ∧
      (∀ s ∈ [wSpecA, wSpecB, wSpecC], s.uid ≠ wSpecB.uid →
        regLookup wDisp.subscribers s.uid = none →
        ∃ h, wEnvFailB.createConsumerGroup wDisp.config.brokers wCfg
            (groupIdOf s.uid) = CreateResult.ok h ∧
          regLookup (UpdateSubscriptions wEnvFailB wDisp
              [wSpecA, wSpecB, wSpecC]).state.subscribers s.uid =
            some (mkWrapper s h)) ∧
      regLookup (UpdateSubscriptions wEnvFailB wDisp
          [wSpecA, wSpecB, wSpecC]).state.subscribers wSpecB.uid = none ∧
      (∀ u, u ∉ [wSpecA, wSpecB, wSpecC].map (fun s => s.uid) →
        regLookup (UpdateSubscriptions wEnvFailB wDisp
            [wSpecA, wSpecB, wSpecC]).state.subscribers u = none) := by
  refine updateSubscriptions_containment wEnvFailB wDisp wCfg
    [wSpecA, wSpecB, wSpecC] wSpecB "boom" rfl (by decide) (fun _ => rfl)
    (by decide) (by decide) (by decide) ?_
  intro s hs hne hl
  fin_cases hs
  · exact ⟨7, by decide⟩
  · exact absurd rfl hne
  · exact ⟨7, by decide⟩

/-- Claim C7: if UpdateSubscriptions(S1) fully succeeds and is followed by
UpdateSubscriptions(S2) with S2 a strict subset of S1 (closes succeeding),
then afterwards every registration whose identity is in S1 minus S2 has had
its cancellation signal fired and its handle close attempted and is absent
from the registry, while every registration whose identity is in S2 is
untouched - the registry entry (spec, group identifier and consumer-group
handle) is identical to the one after the first call - and the second call
creates no consumer group and starts no consumption loop. -/
theorem updateSubscriptions_monotone_removal (env : KafkaEnv)
    (d0 : DispatcherImpl) (cfg : SaramaConfig)
    (S1 S2 : List SubscriberSpec)
    (hcfg : d0.config.saramaConfig = some cfg)
    (hnd1 : (S1.map (fun s => s.uid)).Nodup)
    (hclose : ∀ h, env.closeOk h = true)
    (hhandles : ∀ w ∈ d0.subscribers, (w.consumerGroup).isSome)
    (hsub : ∀ s ∈ S2, s ∈ S1)
    (_hstrict : ∃ s, s ∈ S1 ∧ s ∉ S2)
    (hfull : (UpdateSubscriptions env d0 S1).failed = some []) :
    (∀ u, u ∈ S1.map (fun s => s.uid) → u ∉ S2.map (fun s => s.uid) →
      regLookup (UpdateSubscriptions env (UpdateSubscriptions env d0 S1).state
          S2).state.subscribers u = none ∧
        DispatcherEvent.stopSignaled u ∈
          (UpdateSubscriptions env (UpdateSubscriptions env d0 S1).state
            S2).events ∧
        DispatcherEvent.closeAttempted u ∈
          (UpdateSubscriptions env (UpdateSubscriptions env d0 S1).state
            S2).events) ∧
      (∀ u, u ∈ S2.map (fun s => s.uid) →
        regLookup (UpdateSubscriptions env (UpdateSubscriptions env d0 S1).state
            S2).state.subscribers u =
          regLookup (UpdateSubscriptions env d0 S1).state.subscribers u) ∧
      countCreates (UpdateSubscriptions env (UpdateSubscriptions env d0 S1).state
          S2).events = 0 ∧
      countStarts (UpdateSubscriptions env (UpdateSubscriptions env d0 S1).state
          S2).events = 0 := by
  have hag0 : ∀ s ∈ S1,
      regLookup (d0.subscribers : Registry) s.uid =
        regLookup d0.subscribers s.uid := fun _ _ => rfl
  have hfailedEq := processSpecs_failed_eq env d0.config.brokers cfg
    d0.subscribers S1 ⟨d0.subscribers, [], [], [DispatcherEvent.lockAcquired]⟩
    hag0 hnd1
  have hregEq := processSpecs_registry_eq env d0.config.brokers cfg
    d0.subscribers S1 ⟨d0.subscribers, [], [], [DispatcherEvent.lockAcquired]⟩
    hag0 hnd1
  have hactEq := processSpecs_active_eq env d0.config.brokers cfg
    d0.subscribers S1 ⟨d0.subscribers, [], [], [DispatcherEvent.lockAcquired]⟩
    hag0 hnd1
  have hfm : S1.filterMap (failEntry env d0.config.brokers cfg d0.subscribers)
      = [] := by
    simp only [UpdateSubscriptions, hcfg] at hfull
    rw [hfailedEq] at hfull
    simpa using Option.some.inj hfull
  have hAllOk : ∀ s ∈ S1,
      failEntry env d0.config.brokers cfg d0.subscribers s = none :=
    List.filterMap_eq_nil_iff.mp hfm
  have hOkOf : ∀ s ∈ S1, regLookup d0.subscribers s.uid = none →
      ∃ h, env.createConsumerGroup d0.config.brokers cfg (groupIdOf s.uid) =
        CreateResult.ok h := by
    intro s hs hl
    have hfe := hAllOk s hs
    cases hc : env.createConsumerGroup d0.config.brokers cfg
        (groupIdOf s.uid) with
    | ok h => exact ⟨h, rfl⟩
    | fail e =>
      rw [failEntry, hl, hc] at hfe
      exact absurd hfe (by simp)
  have hreg1 : ∀ s ∈ S1, ∃ w h,
      regLookup (UpdateSubscriptions env d0 S1).state.subscribers s.uid =
        some w ∧ w.consumerGroup = some h := by
    intro s hs
    have hact : s.uid ∈ (processSpecs env d0.config.brokers cfg S1
        ⟨d0.subscribers, [], [], [DispatcherEvent.lockAcquired]⟩).active := by
      rw [hactEq]
      simp only [List.nil_append, List.mem_filterMap]
      refine ⟨s, hs, ?_⟩
      cases hl : regLookup d0.subscribers s.uid with
      | some w => simp [activeEntry, hl]
      | none =>
        obtain ⟨h, hc⟩ := hOkOf s hs hl
        simp [activeEntry, hl, hc]
    simp only [UpdateSubscriptions, hcfg]
    rw [sweepSubs_registry_active env _ _ _ _ hact]
    show ∃ w h, regLookup (processSpecs env d0.config.brokers cfg S1
        ⟨d0.subscribers, [], [], [DispatcherEvent.lockAcquired]⟩).registry
        s.uid = some w ∧ w.consumerGroup = some h
    rw [hregEq, regLookup_append]
    cases hl : regLookup d0.subscribers s.uid with
    | some w =>
      obtain ⟨hm, _⟩ := regLookup_mem hl
      obtain ⟨h, hh⟩ := Option.isSome_iff_exists.mp (hhandles w hm)
      exact ⟨w, h, rfl, hh⟩
    | none =>
      obtain ⟨h, hc⟩ := hOkOf s hs hl
      rw [regLookup_filterMap_newEntry env d0.config.brokers cfg d0.subscribers
        S1 s hnd1 hs]
      exact ⟨mkWrapper s h, h, by simp [newEntry, hl, hc], rfl⟩
  set d1 := (UpdateSubscriptions env d0 S1).state with hd1
  have hcfg1 : d1.config.saramaConfig = some cfg := by
    rw [hd1, UpdateSubscriptions_saramaConfig, hcfg]
  have hregS2 : ∀ s ∈ S2, (regLookup d1.subscribers s.uid).isSome := by
    intro s hs
    obtain ⟨w, h, hw, _⟩ := hreg1 s (hsub s hs)
    simp [hw]
  have hloop2 := processSpecs_all_registered env d1.config.brokers cfg S2
    ⟨d1.subscribers, [], [], [DispatcherEvent.lockAcquired]⟩ hregS2
  refine ⟨?_, ?_, ?_, ?_⟩
  · intro u hu1 hu2
    obtain ⟨s, hsS1, rfl⟩ := List.mem_map.mp hu1
    obtain ⟨w, h, hw, hcg⟩ := hreg1 s hsS1
    have hact2 : s.uid ∉ (processSpecs env d1.config.brokers cfg S2
        ⟨d1.subscribers, [], [], [DispatcherEvent.lockAcquired]⟩).active := by
      rw [hloop2]
      simpa using hu2
    obtain ⟨hm, hmu⟩ := regLookup_mem hw
    refine ⟨?_, ?_, ?_⟩
    · simp only [UpdateSubscriptions, hcfg1]
      rw [sweepSubs_registry_inactive env _ _ _ _ hclose hact2]
      have hin : s.uid ∈ regUids (processSpecs env d1.config.brokers cfg S2
          ⟨d1.subscribers, [], [], [DispatcherEvent.lockAcquired]⟩).registry := by
        rw [hloop2]
        exact hmu ▸ List.mem_map_of_mem _ hm
      rw [if_pos hin]
    · simp only [UpdateSubscriptions, hcfg1]
      apply List.mem_append_left
      have := (sweepSubs_close_events env
        (processSpecs env d1.config.brokers cfg S2
          ⟨d1.subscribers, [], [], [DispatcherEvent.lockAcquired]⟩).active
        (processSpecs env d1.config.brokers cfg S2
          ⟨d1.subscribers, [], [], [DispatcherEvent.lockAcquired]⟩).registry
        ⟨(processSpecs env d1.config.brokers cfg S2
            ⟨d1.subscribers, [], [], [DispatcherEvent.lockAcquired]⟩).registry,
          [],
          (processSpecs env d1.config.brokers cfg S2
            ⟨d1.subscribers, [], [], [DispatcherEvent.lockAcquired]⟩).events⟩
        w ?_ ?_ h hcg).1
      · exact hmu ▸ this
      · rw [hloop2]
        exact hm
      · rw [hloop2, hmu]
        simpa using hu2
    · simp only [UpdateSubscriptions, hcfg1]
      apply List.mem_append_left
      have := (sweepSubs_close_events env
        (processSpecs env d1.config.brokers cfg S2
          ⟨d1.subscribers, [], [], [DispatcherEvent.lockAcquired]⟩).active
        (processSpecs env d1.config.brokers cfg S2
          ⟨d1.subscribers, [], [], [DispatcherEvent.lockAcquired]⟩).registry
        ⟨(processSpecs env d1.config.brokers cfg S2
            ⟨d1.subscribers, [], [], [DispatcherEvent.lockAcquired]⟩).registry,
          [],
          (processSpecs env d1.config.brokers cfg S2
            ⟨d1.subscribers, [], [], [DispatcherEvent.lockAcquired]⟩).events⟩
        w ?_ ?_ h hcg).2
      · exact hmu ▸ this
      · rw [hloop2]
        exact hm
      · rw [hloop2, hmu]
        simpa using hu2
  · intro u hu
    have hact2 : u ∈ (processSpecs env d1.config.brokers cfg S2
        ⟨d1.subscribers, [], [], [DispatcherEvent.lockAcquired]⟩).active := by
      rw [hloop2]
      simpa using hu
    simp only [UpdateSubscriptions, hcfg1]
    rw [sweepSubs_registry_active env _ _ _ _ hact2]
    show regLookup (processSpecs env d1.config.brokers cfg S2
      ⟨d1.subscribers, [], [], [DispatcherEvent.lockAcquired]⟩).registry u =
      regLookup d1.subscribers u
    rw [hloop2]
  · simp only [UpdateSubscriptions, hcfg1, countCreates]
    rw [countOf_append]
    rw [sweepSubs_events_countOf env _ _ _ isCreateEvent (fun _ => rfl)
      (fun _ => rfl) (fun _ => rfl)]
    rw [hloop2]
    rfl
  · simp only [UpdateSubscriptions, hcfg1, countStarts]
    rw [countOf_append]
    rw [sweepSubs_events_countOf env _ _ _ isStartEvent (fun _ => rfl)
      (fun _ => rfl) (fun _ => rfl)]
    rw [hloop2]
    rfl

theorem updateSubscriptions_monotone_removal_witness :
    (∀ u, u ∈ [wSpecA, wSpecB].map (fun s => s.uid) →
      u ∉ [wSpecA].map (fun s => s.uid) →
      regLookup (UpdateSubscriptions wEnvOk
          (UpdateSubscriptions wEnvOk wDisp [wSpecA, wSpecB]).state
          [wSpecA]).state.subscribers u = none ∧
        DispatcherEvent.stopSignaled u ∈
          (UpdateSubscriptions wEnvOk
            (UpdateSubscriptions wEnvOk wDisp [wSpecA, wSpecB]).state
            [wSpecA]).events ∧
        DispatcherEvent.closeAttempted u ∈
          (UpdateSubscriptions wEnvOk
            (UpdateSubscriptions wEnvOk wDisp [wSpecA, wSpecB]).state
            [wSpecA]).events) ∧
      (∀ u, u ∈ [wSpecA].map (fun s => s.uid) →
        regLookup (UpdateSubscriptions wEnvOk
            (UpdateSubscriptions wEnvOk wDisp [wSpecA, wSpecB]).state
            [wSpecA]).state.subscribers u =
          regLookup (UpdateSubscriptions wEnvOk wDisp
            [wSpecA, wSpecB]).state.subscribers u) ∧
      countCreates (UpdateSubscriptions wEnvOk
          (UpdateSubscriptions wEnvOk wDisp [wSpecA, wSpecB]).state
          [wSpecA]).events = 0 ∧
      countStarts (UpdateSubscriptions wEnvOk
          (UpdateSubscriptions wEnvOk wDisp [wSpecA, wSpecB]).state
          [wSpecA]).events = 0 :=
  updateSubscriptions_monotone_removal wEnvOk wDisp wCfg [wSpecA, wSpecB]
    [wSpecA] rfl (by decide) (fun _ => rfl)
    (fun w hw => absurd hw (List.not_mem_nil w)) (by decide)
    ⟨wSpecB, by decide, by decide⟩ (by decide)

/-- Claim C2: for a dispatcher whose state resulted from a reconciliation
(closes succeeding) and whose snapshot is non-nil, ConfigChanged with a
merged configuration that differs in a consumer-relevant setting shuts the
current dispatcher down completely (its registry ends empty), installs the
merged snapshot, and performs exactly one UpdateSubscriptions call - on a
fresh dispatcher holding the merged snapshot - whose argument is exactly the
retained specification set, which in turn is exactly the specification set
of the surviving registrations of the old dispatcher immediately before the
change; no other specification set is ever passed. -/
theorem configChanged_rebuild_surviving_specs (env : KafkaEnv)
    (d0 : DispatcherImpl) (S0 : List SubscriberSpec) (cm : ConfigMap)
    (cfg0 nc0 : SaramaConfig) (d : DispatcherImpl)
    (survivors : List SubscriberSpec) (merged : SaramaConfig)
    (inner : UpdateResult)
    (hclose : ∀ h, env.closeOk h = true)
    (hcfg0 : d0.config.saramaConfig = some cfg0)
    (hmerge : mergeSaramaSettings cm = MergeResult.ok nc0)
    (hneq : configEqual (updateSaramaConfig nc0 cfg0.clientID cfg0.saslUser
        cfg0.saslPassword) cfg0 = false)
    (hd : d = (UpdateSubscriptions env d0 S0).state)
    (hs : survivors = d.subscribers.map (fun w => w.spec))
    (hm : merged = updateSaramaConfig nc0 cfg0.clientID cfg0.saslUser
      cfg0.saslPassword)
    (hinner : inner = UpdateSubscriptions env
      (NewDispatcher { d.config with saramaConfig := some merged })
      d.config.subscriberSpecs) :
    d.config.subscriberSpecs = survivors ∧
      DispatcherEvent.subscriptionsUpdated survivors ∈
        (ConfigChanged env d cm).events ∧
      (∀ L, DispatcherEvent.subscriptionsUpdated L ∈
          (ConfigChanged env d cm).events → L = survivors) ∧
      (ConfigChanged env d cm).self.subscribers = [] ∧
      (ConfigChanged env d cm).self.config.saramaConfig = some merged ∧
      (ConfigChanged env d cm).events = (Shutdown env d).2 ++
        [DispatcherEvent.subscriptionsUpdated d.config.subscriberSpecs] ++
        inner.events ∧
      (inner.failed = some [] →
        (ConfigChanged env d cm).replacement = some inner.state) ∧
      (∀ l, inner.failed = some l → l ≠ [] →
        (ConfigChanged env d cm).replacement = none) := by
  have hcfgd : d.config.saramaConfig = some cfg0 := by
    rw [hd, UpdateSubscriptions_saramaConfig, hcfg0]
  have h1 : d.config.subscriberSpecs = survivors := by
    rw [hs, hd]
    exact UpdateSubscriptions_specs_eq_registry env d0 S0 cfg0 hcfg0 hclose
  have hred : ConfigChanged env d cm = rebuildDispatcher env d merged := by
    rw [hm]
    simp [ConfigChanged, hmerge, hcfgd, hneq]
  have hev : (ConfigChanged env d cm).events = (Shutdown env d).2 ++
      [DispatcherEvent.subscriptionsUpdated d.config.subscriberSpecs] ++
      inner.events := by
    rw [hred, hinner]
    simp only [rebuildDispatcher]
    split <;> rfl
  have hshut0 : countOf isSubsUpdatedEvent (Shutdown env d).2 = 0 := by
    show countOf isSubsUpdatedEvent
      (shutdownLoop env d.subscribers d.subscribers []).2 = 0
    rw [shutdownLoop_events_countOf env _ _ _ isSubsUpdatedEvent
      (fun _ => rfl) (fun _ => rfl) (fun _ => rfl)]
    rfl
  have hinner0 : countOf isSubsUpdatedEvent inner.events = 0 := by
    rw [hinner]
    exact UpdateSubscriptions_countOf env _ _ isSubsUpdatedEvent
      (fun _ => rfl) (fun _ => rfl) (fun _ => rfl) (fun _ => rfl)
      (fun _ => rfl) (fun _ => rfl) rfl rfl
  refine ⟨h1, ?_, ?_, ?_, ?_, ?_, ?_, ?_⟩
  · rw [hev, ← h1]
    exact List.mem_append_left _ (List.mem_append_right _
      (List.mem_singleton.mpr rfl))
  · intro L hL
    rw [hev] at hL
    rcases List.mem_append.mp hL with hL1 | hL2
    · rcases List.mem_append.mp hL1 with hLs | hLm
      · exact absurd hLs (not_mem_of_countOf_zero hshut0 rfl)
      · rw [← h1]
        simpa using List.mem_singleton.mp hLm
    · exact absurd hL2 (not_mem_of_countOf_zero hinner0 rfl)
  · rw [hred]
    simp only [rebuildDispatcher]
    split <;> exact Shutdown_registry_closeOk env _ hclose
  · rw [hred]
    simp only [rebuildDispatcher]
    split <;> rfl
  · exact hev
  · intro hfe
    rw [hred]
    rw [hinner] at hfe
    simp only [rebuildDispatcher, Shutdown, hfe, mapLen]
    rw [hinner]
    simp [Shutdown]
  · intro l hl hne
    rw [hred]
    rw [hinner] at hl
    simp only [rebuildDispatcher, Shutdown, hl, mapLen]
    rw [if_pos (List.length_pos.mpr hne)]

theorem configChanged_rebuild_surviving_specs_witness :
    wDisp1.config.subscriberSpecs = wSurvivors ∧
      DispatcherEvent.subscriptionsUpdated wSurvivors ∈
        (ConfigChanged wEnvOk wDisp1 wCmRebuild).events ∧
      (∀ L, DispatcherEvent.subscriptionsUpdated L ∈
          (ConfigChanged wEnvOk wDisp1 wCmRebuild).events → L = wSurvivors) ∧
      (ConfigChanged wEnvOk wDisp1 wCmRebuild).self.subscribers = [] ∧
      (ConfigChanged wEnvOk wDisp1 wCmRebuild).self.config.saramaConfig =
        some wMerged ∧
      (ConfigChanged wEnvOk wDisp1 wCmRebuild).events =
        (Shutdown wEnvOk wDisp1).2 ++
          [DispatcherEvent.subscriptionsUpdated
            wDisp1.config.subscriberSpecs] ++ wInner.events ∧
      (wInner.failed = some [] →
        (ConfigChanged wEnvOk wDisp1 wCmRebuild).replacement =
          some wInner.state) ∧
      (∀ l, wInner.failed = some l → l ≠ [] →
        (ConfigChanged wEnvOk wDisp1 wCmRebuild).replacement = none) :=
  configChanged_rebuild_surviving_specs wEnvOk wDisp [wSpecA] wCmRebuild wCfg
    wOverlay wDisp1 wSurvivors wMerged wInner (fun _ => rfl) rfl rfl
    (by decide) rfl rfl rfl rfl

end EventingKafka
